import Mathlib

/-!
Density calculator (`static/js/density_calculator.js`).

A shallow embedding of `getDensityValue` and `calculateTotalFloorArea`.

JavaScript numbers are modelled by `JSNum`: a finite value is the rational it
denotes (every finite double is a rational), and the three non-finite values
`Infinity`, `-Infinity` and `NaN` are kept as separate constructors, so that a
division by zero is visible in the result.  The operators `+`, `-`, `*` and `/`
return the binary64 value of the exact result (`round64`: round to nearest, a
tie to the even significand, an infinity on overflow), as IEEE 754 defines
them.  The sign of zero is not modelled.
-/

namespace DensityCalculator

/-- A JavaScript number: a finite value, `Infinity`, `-Infinity` or `NaN`. -/
inductive JSNum where
  | fin (q : ℚ)
  | posInf
  | negInf
  | nan
  deriving DecidableEq

namespace JSNum

/-- Unary minus. -/
def neg : JSNum → JSNum
  | fin q => fin (-q)
  | posInf => negInf
  | negInf => posInf
  | nan => nan

/-- The infinity with the sign of `q` (for `q ≠ 0`). -/
def signedInf (q : ℚ) : JSNum :=
  if 0 < q then posInf else negInf

/-- The binary exponent that fixes the spacing of the doubles around `x`: the
`e` with `2 ^ e ≤ |x| < 2 ^ (e + 1)`, and -1022 in the subnormal range. -/
def binade (x : ℚ) : ℤ :=
  max (Int.log 2 |x|) (-1022)

/-- The spacing of the doubles around `x` (53 significant bits). -/
def ulp (x : ℚ) : ℚ :=
  (2 : ℚ) ^ (binade x - 52)

/-- The nearest integer, a tie going to the even one. -/
def roundHalfEven (q : ℚ) : ℤ :=
  if q - ⌊q⌋ < 1 / 2 then ⌊q⌋
  else if 1 / 2 < q - ⌊q⌋ then ⌊q⌋ + 1
  else if ⌊q⌋ % 2 = 0 then ⌊q⌋
  else ⌊q⌋ + 1

/-- The binary64 value of the real `x`: the nearest double, a tie going to the
even significand, and an infinity when that value is out of range
(IEEE 754 round-to-nearest-even). -/
def round64 (x : ℚ) : JSNum :=
  if (2 : ℚ) ^ (1024 : ℕ) ≤ |(roundHalfEven (x / ulp x) : ℚ) * ulp x| then signedInf x
  else fin ((roundHalfEven (x / ulp x) : ℚ) * ulp x)

/-- The operator `+` on numbers. -/
def add : JSNum → JSNum → JSNum
  | fin a, fin b => round64 (a + b)
  | fin _, posInf => posInf
  | fin _, negInf => negInf
  | posInf, fin _ => posInf
  | negInf, fin _ => negInf
  | posInf, posInf => posInf
  | negInf, negInf => negInf
  | posInf, negInf => nan
  | negInf, posInf => nan
  | nan, _ => nan
  | _, nan => nan

/-- The operator `-` on numbers. -/
def sub (a b : JSNum) : JSNum :=
  add a (neg b)

/-- The operator `*` on numbers. -/
def mul : JSNum → JSNum → JSNum
  | fin a, fin b => round64 (a * b)
  | fin a, posInf => if a = 0 then nan else signedInf a
  | fin a, negInf => if a = 0 then nan else signedInf (-a)
  | posInf, fin b => if b = 0 then nan else signedInf b
  | negInf, fin b => if b = 0 then nan else signedInf (-b)
  | posInf, posInf => posInf
  | negInf, negInf => posInf
  | posInf, negInf => negInf
  | negInf, posInf => negInf
  | nan, _ => nan
  | _, nan => nan

/-- The operator `/` on numbers: a finite non-zero value divided by zero is an
infinity, zero divided by zero is `NaN`. -/
def div : JSNum → JSNum → JSNum
  | fin a, fin b =>
      if b = 0 then (if a = 0 then nan else signedInf a) else round64 (a / b)
  | fin _, posInf => fin 0
  | fin _, negInf => fin 0
  | posInf, fin b => if 0 ≤ b then posInf else negInf
  | negInf, fin b => if 0 ≤ b then negInf else posInf
  | posInf, posInf => nan
  | negInf, negInf => nan
  | posInf, negInf => nan
  | negInf, posInf => nan
  | nan, _ => nan
  | _, nan => nan

/-- The function `Math.round`: the nearest integer, a tie going to `+∞`.  On a
double the result is a double, so nothing is rounded a second time. -/
def round : JSNum → JSNum
  | fin q => fin (⌊q + 1 / 2⌋ : ℤ)
  | posInf => posInf
  | negInf => negInf
  | nan => nan

/-- The operator `===` between a finite value and a number. -/
def strictEq (a : ℚ) : JSNum → Bool
  | fin b => decide (a = b)
  | _ => false

end JSNum

open JSNum

/-- The call `Math.max(...xs)` on an array of finite values; `-Infinity` on the
empty array. -/
def mathMax : List ℚ → JSNum
  | [] => negInf
  | x :: xs => fin (xs.foldl max x)

/-- The call `Math.min(...xs)` on an array of finite values; `Infinity` on the
empty array. -/
def mathMin : List ℚ → JSNum
  | [] => posInf
  | x :: xs => fin (xs.foldl min x)

/-- The array `greenCells` of `getDensityValue`: pairs
(territory size, density value). -/
def greenCells : List (ℚ × ℚ) :=
  [(1, 20), (1, 22), (1, 25), (1, 30), (1, 35),
   (5, 20), (5, 22), (5, 25),
   (15, 20), (15, 22),
   (30, 20),
   (60, 20)]

/-- The array `uniqueTerritorySizes`: the distinct first components, sorted in
ascending order.  (The order in which the `Set` lists its members does not
matter, the array is sorted right after.) -/
def uniqueTerritorySizes (cells : List (ℚ × ℚ)) : List ℚ :=
  ((cells.map Prod.fst).dedup).insertionSort (· ≤ ·)

/-- The array `lowerSizes`: the table sizes below `territory_size`. -/
def lowerSizes (cells : List (ℚ × ℚ)) (territory_size : ℚ) : List ℚ :=
  (uniqueTerritorySizes cells).filter (fun size => decide (size < territory_size))

/-- The array `upperSizes`: the table sizes above `territory_size`. -/
def upperSizes (cells : List (ℚ × ℚ)) (territory_size : ℚ) : List ℚ :=
  (uniqueTerritorySizes cells).filter (fun size => decide (size > territory_size))

/-- The constant `lowerSize`: the greatest table size below `territory_size`,
the least table size when there is none. -/
def lowerSize (cells : List (ℚ × ℚ)) (territory_size : ℚ) : JSNum :=
  if (lowerSizes cells territory_size).length > 0
  then mathMax (lowerSizes cells territory_size)
  else mathMin (uniqueTerritorySizes cells)

/-- The constant `upperSize`: the least table size above `territory_size`,
the greatest table size when there is none. -/
def upperSize (cells : List (ℚ × ℚ)) (territory_size : ℚ) : JSNum :=
  if (upperSizes cells territory_size).length > 0
  then mathMin (upperSizes cells territory_size)
  else mathMax (uniqueTerritorySizes cells)

/-- The greatest density among the cells whose size is `===` to `size`
(`lowerDensity`, `upperDensity`). -/
def maxDensityAt (cells : List (ℚ × ℚ)) (size : JSNum) : JSNum :=
  mathMax ((cells.filter (fun cell => strictEq cell.1 size)).map Prod.snd)

/-- The divisor `upperSize - lowerSize` of the interpolation formula. -/
def interpolationDivisor (cells : List (ℚ × ℚ)) (territory_size : ℚ) : JSNum :=
  sub (upperSize cells territory_size) (lowerSize cells territory_size)

/-- The body of `getDensityValue`, over an arbitrary table of cells. -/
def getDensityValueOn (cells : List (ℚ × ℚ)) (territory_size : ℚ) : JSNum :=
  if territory_size ∈ uniqueTerritorySizes cells then
    mathMax ((cells.filter (fun cell => decide (cell.1 = territory_size))).map Prod.snd)
  else
    let lowerDensity := maxDensityAt cells (lowerSize cells territory_size)
    let upperDensity := maxDensityAt cells (upperSize cells territory_size)
    let interpolatedDensity :=
      add lowerDensity
        (div
          (mul (sub (fin territory_size) (lowerSize cells territory_size))
            (sub upperDensity lowerDensity))
          (interpolationDivisor cells territory_size))
    div (round (mul interpolatedDensity (fin 10))) (fin 10)

/-- The function `getDensityValue`. -/
def getDensityValue (territory_size : ℚ) : JSNum :=
  getDensityValueOn greenCells territory_size

/-- Lines 48 and 51 on finite bounds and densities: the interpolation formula,
then `Math.round(interpolatedDensity * 10) / 10`. -/
def interpolate (territory_size lowerSize upperSize lowerDensity upperDensity : ℚ) : JSNum :=
  div
    (round
      (mul
        (add (fin lowerDensity)
          (div
            (mul (sub (fin territory_size) (fin lowerSize))
              (sub (fin upperDensity) (fin lowerDensity)))
            (sub (fin upperSize) (fin lowerSize))))
        (fin 10)))
    (fin 10)

/-- The function `calculateTotalFloorArea`. -/
def calculateTotalFloorArea (density area : JSNum) : JSNum :=
  mul density area

/-! ## The vocabulary of the specification -/

/-- The reduced table: one row per territory size, holding the greatest density
of that size. -/
def reducedCells : List (ℚ × ℚ) :=
  [(1, 35), (5, 25), (15, 22), (30, 20), (60, 20)]

/-- The density `d` is the maximum density recorded for the size `s` in
`greenCells`: a row `(s, d)` is in the table and no row of size `s` has a
greater density. -/
def IsMaxDensity (s d : ℚ) : Prop :=
  (s, d) ∈ greenCells ∧ ∀ cell ∈ greenCells, cell.1 = s → cell.2 ≤ d

instance (s d : ℚ) : Decidable (IsMaxDensity s d) := by
  unfold IsMaxDensity
  infer_instance

/-- The value `r` is `x` rounded to the nearest 0.1, a tie going to `+∞`:
`r` is a multiple of 0.1 and `x - 0.05 < r ≤ x + 0.05`. -/
def IsNearestTenth (x r : ℚ) : Prop :=
  ((⌊r * 10⌋ : ℤ) : ℚ) = r * 10 ∧ x - 1 / 20 < r ∧ r ≤ x + 1 / 20

instance (x r : ℚ) : Decidable (IsNearestTenth x r) := by
  unfold IsNearestTenth
  infer_instance

/-- The real `x` is a finite double: a significand of at most 53 bits times a
power of 2 that is at least `2 ^ (-1074)`, below `2 ^ 1024` in size. -/
def IsBinary64 (x : ℚ) : Prop :=
  ∃ m k : ℤ, |m| < 2 ^ (53 : ℕ) ∧ -1074 ≤ k ∧ x = (m : ℚ) * (2 : ℚ) ^ k
    ∧ |x| < (2 : ℚ) ^ (1024 : ℕ)

/-- The line through the points `p` and `q`, at `x`. -/
def lineThrough (p q : ℚ × ℚ) (x : ℚ) : ℚ :=
  p.2 + (x - p.1) * (q.2 - p.2) / (q.1 - p.1)

/-- The piecewise-linear interpolant through (1, 35), (5, 25), (15, 22),
(30, 20), (60, 20), on the interval from 1 to 60. -/
def interpolant (x : ℚ) : ℚ :=
  if x ≤ 5 then lineThrough (1, 35) (5, 25) x
  else if x ≤ 15 then lineThrough (5, 25) (15, 22) x
  else if x ≤ 30 then lineThrough (15, 22) (30, 20) x
  else lineThrough (30, 20) (60, 20) x

end DensityCalculator

/-!
Polygon creator (`static/js/polygon_creator.js`) and the drag handlers of
`static/js/map.js`.

The object `polygonState` is a record that every handler takes and returns.
An element of the array `points` is `some (lng, lat)`, or `none` where the array
has a hole (`undefined` when read): `onDragMove` assigns at an index that may
lie past the end of the array.  A handler that ends by an exception leaves the
state as it is at the throw; `Except.error st` records that state.  The page's
elements, the map and its sources are taken to exist, so the one exception of
these handlers is the `TypeError` of spreading an `undefined` first point.
Alerts, the cursor, the visibility of buildings and the requests to the server
do not touch `polygonState` and are left out.
-/

namespace PolygonCreator

/-- A position `[lng, lat]`. -/
abbrev Point := ℚ × ℚ

/-- A GeoJSON feature built by `updatePolygonDisplay`: the polygon, with the
ring of `geometry.coordinates`, or a vertex with its coordinates and its
`properties.index`. -/
inductive Feature where
  | polygon (ring : List (Option Point))
  | vertex (coordinates : Point) (index : ℕ)
  deriving DecidableEq

/-- The object `polygonState`. -/
structure PolygonState where
  drawingMode : Bool
  editMode : Bool
  points : List (Option Point)
  currentPolygon : Option Feature
  isDragging : Bool
  dragPointIndex : ℤ
  deriving DecidableEq

/-- The initial value of `polygonState`. -/
def initialPolygonState : PolygonState :=
  { drawingMode := false
    editMode := false
    points := []
    currentPolygon := none
    isDragging := false
    dragPointIndex := -1 }

/-- The read `xs[i]`: `undefined` at a hole and past the end. -/
def elementAt (xs : List (Option Point)) (i : ℕ) : Option Point :=
  (xs.get? i).join

/-- The assignment `xs[i] = coords`: in place inside the array, and past its
end after as many holes as it takes; a negative index sets no element. -/
def assignAt (xs : List (Option Point)) (i : ℤ) (coords : Point) : List (Option Point) :=
  if i < 0 then xs
  else if i.toNat < xs.length then xs.set i.toNat (some coords)
  else xs ++ List.replicate (i.toNat - xs.length) none ++ [some coords]

/-- The function `arePointsEqual`. -/
def arePointsEqual (point1 point2 : Option Point) : Bool :=
  match point1, point2 with
  | some p, some q => decide (p.1 = q.1) && decide (p.2 = q.2)
  | _, _ => false

/-- The closing of the ring in `updatePolygonDisplay` and
`updateBuildingsVisibility`, on an array of at least 3 points: a copy of the
first point is pushed unless the first and the last are equal; `none` is the
`TypeError` of spreading an `undefined` first point. -/
def closeRing (points : List (Option Point)) : Option (List (Option Point)) :=
  let polygonCoords := points
  if !arePointsEqual (elementAt polygonCoords 0)
      (elementAt polygonCoords (polygonCoords.length - 1)) then
    match elementAt polygonCoords 0 with
    | some p => some (polygonCoords ++ [some p])
    | none => none
  else some polygonCoords

/-- The vertex features of `updatePolygonDisplay`: one for each point that is
present, with its index in the array (`forEach` skips the holes). -/
def vertexFeatures (points : List (Option Point)) : List Feature :=
  points.enum.filterMap (fun ip => ip.2.map (fun point => Feature.vertex point ip.1))

/-- The function `updatePolygonDisplay`: the state after it and the array
`features` handed to `updateGeoJSONSource`. -/
def updatePolygonDisplay (st : PolygonState) :
    Except PolygonState (PolygonState × List Feature) :=
  if st.points.length ≥ 3 then
    match closeRing st.points with
    | some polygonCoords =>
        let polygonFeature := Feature.polygon polygonCoords
        .ok ({ st with currentPolygon := some polygonFeature },
          polygonFeature :: vertexFeatures st.points)
    | none => .error st
  else .ok (st, vertexFeatures st.points)

/-- The function `updateBuildingsVisibility`: it closes a copy of the ring and
hands it to `hideBuildingsInPolygon`, which changes nothing. -/
def updateBuildingsVisibility (st : PolygonState) : Except PolygonState PolygonState :=
  if st.points.length < 3 then .ok st
  else
    match closeRing st.points with
    | some _ => .ok st
    | none => .error st

/-- The function `togglePolygonDrawingMode`. -/
def togglePolygonDrawingMode (st : PolygonState) : Except PolygonState PolygonState :=
  let st1 := if st.editMode then { st with editMode := false } else st
  let st2 := { st1 with drawingMode := !st1.drawingMode }
  let st3 := if st2.drawingMode then { st2 with points := [], currentPolygon := none } else st2
  (updatePolygonDisplay st3).map Prod.fst

/-- The function `togglePolygonEditMode`. -/
def togglePolygonEditMode (st : PolygonState) : Except PolygonState PolygonState :=
  if st.points.length < 3 then .ok st
  else
    match (if st.drawingMode then togglePolygonDrawingMode st else .ok st) with
    | .error st1 => .error st1
    | .ok st1 =>
        let st2 := { st1 with editMode := !st1.editMode }
        if st2.editMode then .ok st2 else updateBuildingsVisibility st2

/-- The function `finishEditMode`. -/
def finishEditMode (st : PolygonState) : Except PolygonState PolygonState :=
  updateBuildingsVisibility { st with editMode := false, isDragging := false }

/-- The function `finishPolygon`. -/
def finishPolygon (st : PolygonState) : Except PolygonState PolygonState :=
  if st.points.length < 3 then .ok st
  else updateBuildingsVisibility { st with drawingMode := false }

/-- The function `resetAll`. -/
def resetAll (st : PolygonState) : PolygonState :=
  { st with
    drawingMode := false
    editMode := false
    isDragging := false
    points := []
    currentPolygon := none
    dragPointIndex := -1 }

/-- The handler of the map's `click` (`setupMapClickHandler`). -/
def onMapClick (st : PolygonState) (coords : Point) : Except PolygonState PolygonState :=
  if !st.drawingMode then .ok st
  else (updatePolygonDisplay { st with points := st.points ++ [some coords] }).map Prod.fst

/-- The handler of `mousedown` on a vertex (`setupPolygonEditHandlers`), with
the `properties.index` of the feature under the pointer. -/
def onVertexMouseDown (st : PolygonState) (pointIndex : ℕ) : PolygonState :=
  if !st.editMode then st
  else { st with isDragging := true, dragPointIndex := pointIndex }

/-- The function `onDragMove`. -/
def onDragMove (st : PolygonState) (coords : Point) : Except PolygonState PolygonState :=
  if !st.isDragging then .ok st
  else
    (updatePolygonDisplay
      { st with points := assignAt st.points st.dragPointIndex coords }).map Prod.fst

/-- The function `onDragEnd`. -/
def onDragEnd (st : PolygonState) : PolygonState :=
  { st with isDragging := false, dragPointIndex := -1 }

/-- The state a handler leaves behind, whether it returned or threw. -/
def stateAfter : Except PolygonState PolygonState → PolygonState
  | .ok st => st
  | .error st => st

/-- What the user and the map can do to `polygonState`. -/
inductive Event where
  | togglePolygonDrawingMode
  | togglePolygonEditMode
  | finishPolygon
  | finishEditMode
  | resetAll
  | mapClick (coords : Point)
  | vertexMouseDown (pointIndex : ℕ)
  | dragMove (coords : Point)
  | dragEnd
  deriving DecidableEq

/-- The state after one event. -/
def step (st : PolygonState) : Event → PolygonState
  | .togglePolygonDrawingMode => stateAfter (togglePolygonDrawingMode st)
  | .togglePolygonEditMode => stateAfter (togglePolygonEditMode st)
  | .finishPolygon => stateAfter (finishPolygon st)
  | .finishEditMode => stateAfter (finishEditMode st)
  | .resetAll => resetAll st
  | .mapClick coords => stateAfter (onMapClick st coords)
  | .vertexMouseDown pointIndex => onVertexMouseDown st pointIndex
  | .dragMove coords => stateAfter (onDragMove st coords)
  | .dragEnd => onDragEnd st

/-- The state after a sequence of events, from the initial state. -/
def run (events : List Event) : PolygonState :=
  events.foldl step initialPolygonState

/-- The two modes are not both on. -/
def ModesExclusive (st : PolygonState) : Prop :=
  ¬ (st.drawingMode = true ∧ st.editMode = true)

instance (st : PolygonState) : Decidable (ModesExclusive st) := by
  unfold ModesExclusive
  infer_instance

end PolygonCreator

namespace DensityCalculator

namespace JSNum

theorem roundHalfEven_intCast (n : ℤ) : roundHalfEven (n : ℚ) = n := by
  simp [roundHalfEven]

theorem floor_le_roundHalfEven (q : ℚ) : ⌊q⌋ ≤ roundHalfEven q := by
  unfold roundHalfEven
  split_ifs <;> omega

theorem roundHalfEven_le_floor_add_one (q : ℚ) : roundHalfEven q ≤ ⌊q⌋ + 1 := by
  unfold roundHalfEven
  split_ifs <;> omega

theorem abs_roundHalfEven_sub_le (q : ℚ) : |(roundHalfEven q : ℚ) - q| ≤ 1 / 2 := by
  have h1 : (⌊q⌋ : ℚ) ≤ q := Int.floor_le q
  have h2 : q < (⌊q⌋ : ℚ) + 1 := Int.lt_floor_add_one q
  unfold roundHalfEven
  rw [abs_le]
  split_ifs with a b c
  · constructor <;> linarith
  · push_cast
    constructor <;> linarith
  · constructor <;> linarith
  · push_cast
    constructor <;> linarith

theorem le_roundHalfEven (q : ℚ) (n : ℤ) (h : (n : ℚ) ≤ q) : n ≤ roundHalfEven q :=
  le_trans (Int.le_floor.mpr h) (floor_le_roundHalfEven q)

theorem roundHalfEven_le (q : ℚ) (n : ℤ) (h : q ≤ (n : ℚ)) : roundHalfEven q ≤ n := by
  by_cases hq : (⌊q⌋ : ℚ) = q
  · have e : roundHalfEven q = ⌊q⌋ := by
      rw [← hq, roundHalfEven_intCast, Int.floor_intCast]
    rw [e]
    have : (⌊q⌋ : ℚ) ≤ n := by rw [hq]; exact h
    exact_mod_cast this
  · have h1 : (⌊q⌋ : ℚ) < q := lt_of_le_of_ne (Int.floor_le q) hq
    have h2 : (⌊q⌋ : ℚ) < n := lt_of_lt_of_le h1 h
    have h3 : ⌊q⌋ < n := by exact_mod_cast h2
    have := roundHalfEven_le_floor_add_one q
    omega

theorem roundHalfEven_eq (q : ℚ) (m : ℤ) (h : |q - m| < 1 / 2) : roundHalfEven q = m := by
  have h1 := abs_roundHalfEven_sub_le q
  rw [abs_lt] at h
  rw [abs_le] at h1
  have a : ((roundHalfEven q : ℤ) : ℚ) < (m : ℚ) + 1 := by linarith
  have b : (m : ℚ) < ((roundHalfEven q : ℤ) : ℚ) + 1 := by linarith
  have a' : roundHalfEven q < m + 1 := by exact_mod_cast a
  have b' : m < roundHalfEven q + 1 := by exact_mod_cast b
  omega

theorem ulp_pos (x : ℚ) : 0 < ulp x := by
  unfold ulp
  positivity

theorem binade_ge (x : ℚ) : -1022 ≤ binade x := le_max_right _ _

/-- The exponent of a value whose place between two powers of 2 is known. -/
theorem binade_eq (x : ℚ) (e : ℤ) (he : -1022 ≤ e) (h1 : (2 : ℚ) ^ e ≤ |x|)
    (h2 : |x| < (2 : ℚ) ^ (e + 1)) : binade x = e := by
  have hpos : 0 < |x| := lt_of_lt_of_le (by positivity) h1
  have a : e ≤ Int.log 2 |x| := by
    have := (Int.zpow_le_iff_le_log (R := ℚ) (b := 2) (by norm_num) hpos (x := e)).mp
      (by exact_mod_cast h1)
    exact this
  have b : Int.log 2 |x| < e + 1 := by
    have := (Int.lt_zpow_iff_log_lt (R := ℚ) (b := 2) (by norm_num) hpos (x := e + 1)).mp
      (by exact_mod_cast h2)
    exact this
  unfold binade
  have : Int.log 2 |x| = e := by omega
  rw [this]
  exact max_eq_left he

/-- Below `2 ^ k` the exponent is below `k`, or at the subnormal floor. -/
theorem binade_le (x : ℚ) (k : ℤ) (hk : -1021 ≤ k) (hk0 : 1 ≤ k ∨ x ≠ 0)
    (h : |x| < (2 : ℚ) ^ k) : binade x ≤ k - 1 := by
  unfold binade
  apply max_le _ (by omega)
  by_cases hx : x = 0
  · rcases hk0 with h1 | h1
    · rw [hx, abs_zero, Int.log_zero_right]
      omega
    · exact absurd hx h1
  · have hpos : 0 < |x| := abs_pos.mpr hx
    have := (Int.lt_zpow_iff_log_lt (R := ℚ) (b := 2) (by norm_num) hpos (x := k)).mp
      (by exact_mod_cast h)
    omega

end JSNum
end DensityCalculator

namespace DensityCalculator
namespace JSNum

theorem round64_zero : round64 0 = fin 0 := by
  have h : roundHalfEven (0 / ulp 0) = 0 := by
    rw [zero_div]
    exact_mod_cast roundHalfEven_intCast 0
  unfold round64
  rw [h]
  norm_num

/-- The value of `round64` where the exponent and the rounded significand are
known. -/
theorem round64_eq_of (x : ℚ) (e m : ℤ) (he : -1022 ≤ e) (h1 : (2 : ℚ) ^ e ≤ |x|)
    (h2 : |x| < (2 : ℚ) ^ (e + 1)) (hm : |x / (2 : ℚ) ^ (e - 52) - m| < 1 / 2)
    (hf : |(m : ℚ) * (2 : ℚ) ^ (e - 52)| < (2 : ℚ) ^ (1024 : ℕ)) :
    round64 x = fin ((m : ℚ) * (2 : ℚ) ^ (e - 52)) := by
  have hb := binade_eq x e he h1 h2
  have hr : roundHalfEven (x / ulp x) = m := by
    unfold ulp
    rw [hb]
    exact roundHalfEven_eq _ m hm
  unfold round64
  rw [hr]
  unfold ulp
  rw [hb, if_neg (not_le.mpr hf)]

/-- A value `m * 2 ^ k` with a significand of at most 53 bits is a double:
`round64` returns it unchanged. -/
theorem round64_exact (x : ℚ) (m k : ℤ) (hx : x = (m : ℚ) * (2 : ℚ) ^ k)
    (hm : |m| < 2 ^ (53 : ℕ)) (hk : -1074 ≤ k) (hr : |x| < (2 : ℚ) ^ (1024 : ℕ)) :
    round64 x = fin x := by
  by_cases h0 : x = 0
  · rw [h0]
    exact round64_zero
  have hpos : 0 < |x| := abs_pos.mpr h0
  have hlt : |x| < (2 : ℚ) ^ (53 + k) := by
    rw [hx, abs_mul, abs_of_pos (show (0 : ℚ) < 2 ^ k by positivity), zpow_add₀ (by norm_num)]
    have : (|m| : ℚ) < 2 ^ (53 : ℕ) := by exact_mod_cast hm
    have : ((|m| : ℤ) : ℚ) = |(m : ℚ)| := by push_cast; rfl
    have h53 : (2 : ℚ) ^ (53 : ℤ) = 2 ^ (53 : ℕ) := by norm_num
    rw [h53]
    have hp : (0 : ℚ) < 2 ^ k := by positivity
    nlinarith
  have hlog : Int.log 2 |x| < 53 + k :=
    (Int.lt_zpow_iff_log_lt (R := ℚ) (b := 2) (by norm_num) hpos (x := 53 + k)).mp
      (by exact_mod_cast hlt)
  have hE : binade x ≤ k + 52 := by
    unfold binade
    apply max_le <;> omega
  obtain ⟨j, hj⟩ : ∃ j : ℕ, (j : ℤ) = k + 52 - binade x := ⟨(k + 52 - binade x).toNat, by omega⟩
  have hdiv : x / ulp x = ((m * 2 ^ j : ℤ) : ℚ) := by
    unfold ulp
    rw [hx, mul_div_assoc, ← zpow_sub₀ (by norm_num : (2 : ℚ) ≠ 0)]
    have : k - (binade ((m : ℚ) * 2 ^ k) - 52) = (j : ℤ) := by
      rw [hj, hx]
      ring
    rw [this]
    push_cast
    rw [zpow_natCast]
  have hr' : roundHalfEven (x / ulp x) = m * 2 ^ j := by
    rw [hdiv]
    exact roundHalfEven_intCast _
  have hy : ((roundHalfEven (x / ulp x) : ℤ) : ℚ) * ulp x = x := by
    rw [hr', ← hdiv]
    exact div_mul_cancel₀ _ (ne_of_gt (ulp_pos x))
  unfold round64
  rw [hy, if_neg (not_le.mpr hr)]

theorem round64_intCast (n : ℤ) (h : |n| < 2 ^ (53 : ℕ)) : round64 (n : ℚ) = fin n := by
  refine round64_exact n n 0 (by simp) h (by norm_num) ?_
  have h1 : ((|n| : ℤ) : ℚ) < 2 ^ (53 : ℕ) := by exact_mod_cast h
  have h2 : ((|n| : ℤ) : ℚ) = |(n : ℚ)| := by push_cast; rfl
  rw [← h2]
  refine lt_trans h1 ?_
  norm_num

end JSNum
end DensityCalculator

namespace DensityCalculator
namespace JSNum

/-- Below `2 ^ k` the rounded value is finite and within `2 ^ (k - 54)` of the
real one. -/
theorem round64_near (x : ℚ) (k : ℤ) (hk1 : -1021 ≤ k) (hk2 : k ≤ 1023)
    (h : |x| < (2 : ℚ) ^ k) :
    ∃ y, round64 x = fin y ∧ |y - x| ≤ (2 : ℚ) ^ (k - 54) := by
  by_cases h0 : x = 0
  · refine ⟨0, by rw [h0]; exact round64_zero, ?_⟩
    rw [h0, sub_zero, abs_zero]
    positivity
  have hE : binade x ≤ k - 1 := binade_le x k hk1 (Or.inr h0) h
  have hu : ulp x ≤ (2 : ℚ) ^ (k - 53) := by
    unfold ulp
    exact zpow_le_zpow_right₀ (by norm_num) (by omega)
  have hup := ulp_pos x
  have herr : |((roundHalfEven (x / ulp x) : ℤ) : ℚ) * ulp x - x| ≤ (2 : ℚ) ^ (k - 54) := by
    have e1 : ((roundHalfEven (x / ulp x) : ℤ) : ℚ) * ulp x - x
        = (((roundHalfEven (x / ulp x) : ℤ) : ℚ) - x / ulp x) * ulp x := by
      field_simp
    rw [e1, abs_mul, abs_of_pos hup]
    have e2 := abs_roundHalfEven_sub_le (x / ulp x)
    have e3 : (2 : ℚ) ^ (k - 54) = 1 / 2 * (2 : ℚ) ^ (k - 53) := by
      rw [show k - 54 = (k - 53) - 1 by ring, zpow_sub_one₀ (by norm_num)]
      ring
    rw [e3]
    exact mul_le_mul e2 hu (le_of_lt hup) (by norm_num)
  refine ⟨((roundHalfEven (x / ulp x) : ℤ) : ℚ) * ulp x, ?_, herr⟩
  have hfin : |((roundHalfEven (x / ulp x) : ℤ) : ℚ) * ulp x| < (2 : ℚ) ^ (1024 : ℕ) := by
    have t1 : |((roundHalfEven (x / ulp x) : ℤ) : ℚ) * ulp x|
        ≤ |((roundHalfEven (x / ulp x) : ℤ) : ℚ) * ulp x - x| + |x| := by
      have := abs_add (((roundHalfEven (x / ulp x) : ℤ) : ℚ) * ulp x - x) x
      simpa using this
    have t2 : (2 : ℚ) ^ (k - 54) ≤ (2 : ℚ) ^ (1023 : ℤ) :=
      zpow_le_zpow_right₀ (by norm_num) (by omega)
    have t3 : (2 : ℚ) ^ k ≤ (2 : ℚ) ^ (1023 : ℤ) :=
      zpow_le_zpow_right₀ (by norm_num) hk2
    have t4 : (2 : ℚ) ^ (1024 : ℕ) = 2 * (2 : ℚ) ^ (1023 : ℤ) := by
      rw [← zpow_natCast, show ((1024 : ℕ) : ℤ) = 1023 + 1 by norm_num,
        zpow_add_one₀ (by norm_num)]
      ring
    rw [t4]
    linarith
  unfold round64
  rw [if_neg (not_le.mpr hfin)]

/-- Below `2 ^ 53` rounding keeps the order with every integer. -/
theorem round64_int_bounds (x y : ℚ) (h : |x| < (2 : ℚ) ^ (53 : ℤ)) (hy : round64 x = fin y) :
    (∀ n : ℤ, (n : ℚ) ≤ x → (n : ℚ) ≤ y) ∧ (∀ n : ℤ, x ≤ (n : ℚ) → y ≤ (n : ℚ)) := by
  have hE : binade x ≤ 52 := by
    have := binade_le x 53 (by norm_num) (Or.inl (by norm_num)) h
    omega
  obtain ⟨j, hj⟩ : ∃ j : ℕ, (j : ℤ) = 52 - binade x := ⟨(52 - binade x).toNat, by omega⟩
  have hup := ulp_pos x
  have hP : ((2 ^ j : ℤ) : ℚ) * ulp x = 1 := by
    unfold ulp
    push_cast
    rw [← zpow_natCast, ← zpow_add₀ (by norm_num : (2 : ℚ) ≠ 0), hj]
    simp
  have hyv : y = ((roundHalfEven (x / ulp x) : ℤ) : ℚ) * ulp x := by
    unfold round64 at hy
    split at hy
    · unfold signedInf at hy
      split at hy <;> exact JSNum.noConfusion hy
    · exact (JSNum.fin.inj hy).symm
  have hxu : x / ulp x = x * ((2 ^ j : ℤ) : ℚ) := by
    rw [div_eq_iff (ne_of_gt hup), mul_assoc, hP, mul_one]
  have hPpos : (0 : ℚ) < ((2 ^ j : ℤ) : ℚ) := by positivity
  constructor
  · intro n hn
    have a : ((n * 2 ^ j : ℤ) : ℚ) ≤ x / ulp x := by
      rw [hxu]
      push_cast
      exact mul_le_mul_of_nonneg_right hn (by positivity)
    have b := le_roundHalfEven _ _ a
    have c : ((n * 2 ^ j : ℤ) : ℚ) ≤ ((roundHalfEven (x / ulp x) : ℤ) : ℚ) := by exact_mod_cast b
    have d := mul_le_mul_of_nonneg_right c (le_of_lt hup)
    rw [hyv]
    have e : ((n * 2 ^ j : ℤ) : ℚ) * ulp x = n := by
      push_cast
      rw [mul_assoc]
      have := hP
      push_cast at this
      rw [this, mul_one]
    rw [e] at d
    exact d
  · intro n hn
    have a : x / ulp x ≤ ((n * 2 ^ j : ℤ) : ℚ) := by
      rw [hxu]
      push_cast
      exact mul_le_mul_of_nonneg_right hn (by positivity)
    have b := roundHalfEven_le _ _ a
    have c : ((roundHalfEven (x / ulp x) : ℤ) : ℚ) ≤ ((n * 2 ^ j : ℤ) : ℚ) := by exact_mod_cast b
    have d := mul_le_mul_of_nonneg_right c (le_of_lt hup)
    rw [hyv]
    have e : ((n * 2 ^ j : ℤ) : ℚ) * ulp x = n := by
      push_cast
      rw [mul_assoc]
      have := hP
      push_cast at this
      rw [this, mul_one]
    rw [e] at d
    exact d

end JSNum
end DensityCalculator
namespace DensityCalculator

open JSNum

/-! ## Arithmetic of `JSNum` on the values that occur -/

theorem JSNum.add_fin (a b : ℚ) : add (fin a) (fin b) = round64 (a + b) := rfl

theorem JSNum.sub_fin (a b : ℚ) : sub (fin a) (fin b) = round64 (a - b) := by
  simp [sub, neg, add, sub_eq_add_neg]

theorem JSNum.mul_fin (a b : ℚ) : mul (fin a) (fin b) = round64 (a * b) := rfl

theorem JSNum.div_fin (a b : ℚ) (hb : b ≠ 0) : div (fin a) (fin b) = round64 (a / b) := by
  simp [div, hb]

theorem JSNum.div_zero_zero : div (fin 0) (fin 0) = nan := by
  simp [div]

theorem JSNum.round_fin (q : ℚ) : round (fin q) = fin (⌊q + 1 / 2⌋ : ℤ) := rfl

theorem JSNum.add_nan (a : JSNum) : add a nan = nan := by
  cases a <;> rfl

theorem JSNum.nan_mul (a : JSNum) : mul nan a = nan := by
  cases a <;> rfl

theorem JSNum.nan_div (a : JSNum) : div nan a = nan := by
  cases a <;> rfl

theorem JSNum.round_nan : round nan = nan := rfl

/-- Whatever `t` is, `t * 0 / 0` is `NaN`. -/
theorem JSNum.mul_zero_div_zero (t : JSNum) : div (mul t (fin 0)) (fin 0) = nan := by
  cases t with
  | fin q => rw [JSNum.mul_fin, mul_zero, round64_zero, JSNum.div_zero_zero]
  | posInf => simp [mul, div]
  | negInf => simp [mul, div]
  | nan => rfl

/-! ## The two outcomes of the interpolation branch -/

/-- Between two finite bounds with finite densities the interpolation branch
returns the value of lines 48 and 51 on them. -/
theorem getDensityValueOn_of_bounds (cells : List (ℚ × ℚ)) (s a b da db : ℚ)
    (hn : s ∉ uniqueTerritorySizes cells)
    (hl : lowerSize cells s = fin a) (hu : upperSize cells s = fin b)
    (hda : maxDensityAt cells (fin a) = fin da) (hdb : maxDensityAt cells (fin b) = fin db) :
    getDensityValueOn cells s = interpolate s a b da db := by
  simp only [getDensityValueOn, if_neg hn, interpolationDivisor, hl, hu, hda, hdb, interpolate]

/-- When both bounds are the same table size the interpolation branch divides
zero by zero and returns `NaN`. -/
theorem getDensityValueOn_of_equal_bounds (cells : List (ℚ × ℚ)) (s a da : ℚ)
    (hn : s ∉ uniqueTerritorySizes cells)
    (hl : lowerSize cells s = fin a) (hu : upperSize cells s = fin a)
    (hda : maxDensityAt cells (fin a) = fin da) :
    getDensityValueOn cells s = nan := by
  rw [getDensityValueOn_of_bounds cells s a a da da hn hl hu hda hda]
  unfold interpolate
  rw [JSNum.sub_fin da da, JSNum.sub_fin a a, sub_self, sub_self, round64_zero,
    JSNum.mul_zero_div_zero, JSNum.add_nan, JSNum.nan_mul, JSNum.round_nan, JSNum.nan_div]

/-! ## The bounds over a table whose sizes are 1, 5, 15, 30, 60 -/

theorem uniqueTerritorySizes_greenCells :
    uniqueTerritorySizes greenCells = [1, 5, 15, 30, 60] := by decide

theorem bounds_below (cells : List (ℚ × ℚ)) (s : ℚ)
    (hU : uniqueTerritorySizes cells = [1, 5, 15, 30, 60]) (h : s < 1) :
    lowerSize cells s = fin 1 ∧ upperSize cells s = fin 1 := by
  have a1 : ¬ (1 : ℚ) < s := by linarith
  have a2 : ¬ (5 : ℚ) < s := by linarith
  have a3 : ¬ (15 : ℚ) < s := by linarith
  have a4 : ¬ (30 : ℚ) < s := by linarith
  have a5 : ¬ (60 : ℚ) < s := by linarith
  have b2 : s < (5 : ℚ) := by linarith
  have b3 : s < (15 : ℚ) := by linarith
  have b4 : s < (30 : ℚ) := by linarith
  have b5 : s < (60 : ℚ) := by linarith
  constructor
  · norm_num [lowerSize, lowerSizes, hU, List.filter, a1, a2, a3, a4, a5, mathMin]
  · norm_num [upperSize, upperSizes, hU, List.filter, h, b2, b3, b4, b5, mathMin]

theorem bounds_1_5 (cells : List (ℚ × ℚ)) (s : ℚ)
    (hU : uniqueTerritorySizes cells = [1, 5, 15, 30, 60]) (h1 : 1 < s) (h2 : s < 5) :
    lowerSize cells s = fin 1 ∧ upperSize cells s = fin 5 := by
  have a2 : ¬ (5 : ℚ) < s := by linarith
  have a3 : ¬ (15 : ℚ) < s := by linarith
  have a4 : ¬ (30 : ℚ) < s := by linarith
  have a5 : ¬ (60 : ℚ) < s := by linarith
  have b1 : ¬ s < (1 : ℚ) := by linarith
  have b3 : s < (15 : ℚ) := by linarith
  have b4 : s < (30 : ℚ) := by linarith
  have b5 : s < (60 : ℚ) := by linarith
  constructor
  · norm_num [lowerSize, lowerSizes, hU, List.filter, h1, a2, a3, a4, a5, mathMax]
  · norm_num [upperSize, upperSizes, hU, List.filter, b1, h2, b3, b4, b5, mathMin]

theorem bounds_5_15 (cells : List (ℚ × ℚ)) (s : ℚ)
    (hU : uniqueTerritorySizes cells = [1, 5, 15, 30, 60]) (h1 : 5 < s) (h2 : s < 15) :
    lowerSize cells s = fin 5 ∧ upperSize cells s = fin 15 := by
  have a1 : (1 : ℚ) < s := by linarith
  have a3 : ¬ (15 : ℚ) < s := by linarith
  have a4 : ¬ (30 : ℚ) < s := by linarith
  have a5 : ¬ (60 : ℚ) < s := by linarith
  have b1 : ¬ s < (1 : ℚ) := by linarith
  have b2 : ¬ s < (5 : ℚ) := by linarith
  have b4 : s < (30 : ℚ) := by linarith
  have b5 : s < (60 : ℚ) := by linarith
  constructor
  · norm_num [lowerSize, lowerSizes, hU, List.filter, a1, h1, a3, a4, a5, mathMax]
  · norm_num [upperSize, upperSizes, hU, List.filter, b1, b2, h2, b4, b5, mathMin]

theorem bounds_15_30 (cells : List (ℚ × ℚ)) (s : ℚ)
    (hU : uniqueTerritorySizes cells = [1, 5, 15, 30, 60]) (h1 : 15 < s) (h2 : s < 30) :
    lowerSize cells s = fin 15 ∧ upperSize cells s = fin 30 := by
  have a1 : (1 : ℚ) < s := by linarith
  have a2 : (5 : ℚ) < s := by linarith
  have a4 : ¬ (30 : ℚ) < s := by linarith
  have a5 : ¬ (60 : ℚ) < s := by linarith
  have b1 : ¬ s < (1 : ℚ) := by linarith
  have b2 : ¬ s < (5 : ℚ) := by linarith
  have b3 : ¬ s < (15 : ℚ) := by linarith
  have b5 : s < (60 : ℚ) := by linarith
  constructor
  · norm_num [lowerSize, lowerSizes, hU, List.filter, a1, a2, h1, a4, a5, mathMax]
  · norm_num [upperSize, upperSizes, hU, List.filter, b1, b2, b3, h2, b5, mathMin]

theorem bounds_30_60 (cells : List (ℚ × ℚ)) (s : ℚ)
    (hU : uniqueTerritorySizes cells = [1, 5, 15, 30, 60]) (h1 : 30 < s) (h2 : s < 60) :
    lowerSize cells s = fin 30 ∧ upperSize cells s = fin 60 := by
  have a1 : (1 : ℚ) < s := by linarith
  have a2 : (5 : ℚ) < s := by linarith
  have a3 : (15 : ℚ) < s := by linarith
  have a5 : ¬ (60 : ℚ) < s := by linarith
  have b1 : ¬ s < (1 : ℚ) := by linarith
  have b2 : ¬ s < (5 : ℚ) := by linarith
  have b3 : ¬ s < (15 : ℚ) := by linarith
  have b4 : ¬ s < (30 : ℚ) := by linarith
  constructor
  · norm_num [lowerSize, lowerSizes, hU, List.filter, a1, a2, a3, h1, a5, mathMax]
  · norm_num [upperSize, upperSizes, hU, List.filter, b1, b2, b3, b4, h2, mathMin]

theorem bounds_above (cells : List (ℚ × ℚ)) (s : ℚ)
    (hU : uniqueTerritorySizes cells = [1, 5, 15, 30, 60]) (h : 60 < s) :
    lowerSize cells s = fin 60 ∧ upperSize cells s = fin 60 := by
  have a1 : (1 : ℚ) < s := by linarith
  have a2 : (5 : ℚ) < s := by linarith
  have a3 : (15 : ℚ) < s := by linarith
  have a4 : (30 : ℚ) < s := by linarith
  have b1 : ¬ s < (1 : ℚ) := by linarith
  have b2 : ¬ s < (5 : ℚ) := by linarith
  have b3 : ¬ s < (15 : ℚ) := by linarith
  have b4 : ¬ s < (30 : ℚ) := by linarith
  have b5 : ¬ s < (60 : ℚ) := by linarith
  constructor
  · norm_num [lowerSize, lowerSizes, hU, List.filter, a1, a2, a3, a4, h, mathMax]
  · norm_num [upperSize, upperSizes, hU, List.filter, b1, b2, b3, b4, b5, mathMax]

/-- A size different from the five table sizes is not in the sorted array. -/
theorem not_mem_sizes (cells : List (ℚ × ℚ)) (s : ℚ)
    (hU : uniqueTerritorySizes cells = [1, 5, 15, 30, 60])
    (h1 : s ≠ 1) (h5 : s ≠ 5) (h15 : s ≠ 15) (h30 : s ≠ 30) (h60 : s ≠ 60) :
    s ∉ uniqueTerritorySizes cells := by
  rw [hU]
  simp [h1, h5, h15, h30, h60]

/-! ## The densities of `greenCells` -/

theorem maxDensityAt_greenCells_1 : maxDensityAt greenCells (fin 1) = fin 35 := by decide

theorem maxDensityAt_greenCells_5 : maxDensityAt greenCells (fin 5) = fin 25 := by decide

theorem maxDensityAt_greenCells_15 : maxDensityAt greenCells (fin 15) = fin 22 := by decide

theorem maxDensityAt_greenCells_30 : maxDensityAt greenCells (fin 30) = fin 20 := by decide

theorem maxDensityAt_greenCells_60 : maxDensityAt greenCells (fin 60) = fin 20 := by decide

/-! ## The value of `getDensityValue` on each part of the axis -/

theorem getDensityValue_below (s : ℚ) (h : s < 1) : getDensityValue s = nan := by
  obtain ⟨hl, hu⟩ := bounds_below greenCells s uniqueTerritorySizes_greenCells h
  exact getDensityValueOn_of_equal_bounds greenCells s 1 35
    (not_mem_sizes _ _ uniqueTerritorySizes_greenCells (by linarith) (by linarith) (by linarith)
      (by linarith) (by linarith)) hl hu maxDensityAt_greenCells_1

theorem getDensityValue_above (s : ℚ) (h : 60 < s) : getDensityValue s = nan := by
  obtain ⟨hl, hu⟩ := bounds_above greenCells s uniqueTerritorySizes_greenCells h
  exact getDensityValueOn_of_equal_bounds greenCells s 60 20
    (not_mem_sizes _ _ uniqueTerritorySizes_greenCells (by linarith) (by linarith) (by linarith)
      (by linarith) (by linarith)) hl hu maxDensityAt_greenCells_60

theorem getDensityValue_1_5 (s : ℚ) (h1 : 1 < s) (h2 : s < 5) :
    getDensityValue s = interpolate s 1 5 35 25 := by
  obtain ⟨hl, hu⟩ := bounds_1_5 greenCells s uniqueTerritorySizes_greenCells h1 h2
  exact getDensityValueOn_of_bounds greenCells s 1 5 35 25
    (not_mem_sizes _ _ uniqueTerritorySizes_greenCells (by linarith) (by linarith) (by linarith)
      (by linarith) (by linarith)) hl hu
    maxDensityAt_greenCells_1 maxDensityAt_greenCells_5

theorem getDensityValue_5_15 (s : ℚ) (h1 : 5 < s) (h2 : s < 15) :
    getDensityValue s = interpolate s 5 15 25 22 := by
  obtain ⟨hl, hu⟩ := bounds_5_15 greenCells s uniqueTerritorySizes_greenCells h1 h2
  exact getDensityValueOn_of_bounds greenCells s 5 15 25 22
    (not_mem_sizes _ _ uniqueTerritorySizes_greenCells (by linarith) (by linarith) (by linarith)
      (by linarith) (by linarith)) hl hu
    maxDensityAt_greenCells_5 maxDensityAt_greenCells_15

theorem getDensityValue_15_30 (s : ℚ) (h1 : 15 < s) (h2 : s < 30) :
    getDensityValue s = interpolate s 15 30 22 20 := by
  obtain ⟨hl, hu⟩ := bounds_15_30 greenCells s uniqueTerritorySizes_greenCells h1 h2
  exact getDensityValueOn_of_bounds greenCells s 15 30 22 20
    (not_mem_sizes _ _ uniqueTerritorySizes_greenCells (by linarith) (by linarith) (by linarith)
      (by linarith) (by linarith)) hl hu
    maxDensityAt_greenCells_15 maxDensityAt_greenCells_30

theorem getDensityValue_30_60 (s : ℚ) (h1 : 30 < s) (h2 : s < 60) :
    getDensityValue s = interpolate s 30 60 20 20 := by
  obtain ⟨hl, hu⟩ := bounds_30_60 greenCells s uniqueTerritorySizes_greenCells h1 h2
  exact getDensityValueOn_of_bounds greenCells s 30 60 20 20
    (not_mem_sizes _ _ uniqueTerritorySizes_greenCells (by linarith) (by linarith) (by linarith)
      (by linarith) (by linarith)) hl hu
    maxDensityAt_greenCells_30 maxDensityAt_greenCells_60

end DensityCalculator

namespace DensityCalculator

open JSNum

/-! ## Lines 48 and 51 between two table sizes, in binary64 -/

theorem sub_intCast_fin (m n : ℤ) (hm : |m - n| < 2 ^ (53 : ℕ)) :
    sub (fin (m : ℚ)) (fin (n : ℚ)) = fin ((m - n : ℤ) : ℚ) := by
  rw [JSNum.sub_fin, ← Int.cast_sub]
  exact round64_intCast (m - n) hm

/-- Rounding below `2 ^ k`, for `k ≤ 53`: the value is finite, within
`2 ^ (k - 54)` of the real one, and on the same side of every integer. -/
theorem round64_bounded (x : ℚ) (k : ℤ) (hk1 : -1021 ≤ k) (hk2 : k ≤ 53)
    (h : |x| < (2 : ℚ) ^ k) :
    ∃ y, round64 x = fin y ∧ |y - x| ≤ (2 : ℚ) ^ (k - 54)
      ∧ (∀ n : ℤ, (n : ℚ) ≤ x → (n : ℚ) ≤ y) ∧ (∀ n : ℤ, x ≤ (n : ℚ) → y ≤ (n : ℚ)) := by
  obtain ⟨y, hy, herr⟩ := round64_near x k hk1 (by omega) h
  have h53 : |x| < (2 : ℚ) ^ (53 : ℤ) :=
    lt_of_lt_of_le h (zpow_le_zpow_right₀ (by norm_num) hk2)
  exact ⟨y, hy, herr, round64_int_bounds x y h53 hy⟩

/-- The binary64 evaluation of lines 48 and 51 strictly between two sizes `a < b`
with densities `da ≥ db`: the value `t` handed to `Math.round` is within
`2 ^ (-40)` of ten times the exact interpolant, the result is the double of
`Math.round(t) / 10`, and it lies between `db` and `da`. -/
theorem interpolate_analysis (s : ℚ) (a b da db : ℤ)
    (hab : a < b) (hw : b - a ≤ 60) (hdb : 0 ≤ db) (hd : db ≤ da) (hda : da ≤ 35)
    (hc : da - db ≤ 15) (hp : (b - a) * (da - db) ≤ 60)
    (h1 : (a : ℚ) < s) (h2 : s < (b : ℚ)) :
    ∃ t r : ℚ,
      interpolate s a b da db = fin r
        ∧ round64 (((⌊t + 1 / 2⌋ : ℤ) : ℚ) / 10) = fin r
        ∧ |t - 10 * ((da : ℚ) + (s - a) * ((db : ℚ) - da) / ((b : ℚ) - a))| ≤ (2 : ℚ) ^ (-40 : ℤ)
        ∧ |r - ((⌊t + 1 / 2⌋ : ℤ) : ℚ) / 10| ≤ (2 : ℚ) ^ (-48 : ℤ)
        ∧ (db : ℚ) ≤ r ∧ r ≤ (da : ℚ) := by
  -- the exact constants
  have ew : sub (fin (b : ℚ)) (fin (a : ℚ)) = fin ((b - a : ℤ) : ℚ) :=
    sub_intCast_fin b a (by rw [abs_of_pos (by omega)]; norm_num; omega)
  have ec : sub (fin (db : ℚ)) (fin (da : ℚ)) = fin ((db - da : ℤ) : ℚ) :=
    sub_intCast_fin db da (by rw [abs_of_nonpos (by omega)]; norm_num; omega)
  have hwq : (1 : ℚ) ≤ ((b - a : ℤ) : ℚ) := by exact_mod_cast (show (1 : ℤ) ≤ b - a by omega)
  have hwq60 : ((b - a : ℤ) : ℚ) ≤ 60 := by exact_mod_cast hw
  have hcq0 : ((db - da : ℤ) : ℚ) ≤ 0 := by exact_mod_cast (show db - da ≤ 0 by omega)
  have hcq15 : (-15 : ℚ) ≤ ((db - da : ℤ) : ℚ) := by
    exact_mod_cast (show (-15 : ℤ) ≤ db - da by omega)
  have hpq : (-60 : ℚ) ≤ ((b - a : ℤ) : ℚ) * ((db - da : ℤ) : ℚ) := by
    have : (-60 : ℤ) ≤ (b - a) * (db - da) := by nlinarith
    exact_mod_cast this
  have hdbq : (0 : ℚ) ≤ (db : ℚ) := by exact_mod_cast hdb
  have hdq : (db : ℚ) ≤ (da : ℚ) := by exact_mod_cast hd
  have hdaq : (da : ℚ) ≤ 35 := by exact_mod_cast hda
  have p6 : (2 : ℚ) ^ (6 : ℤ) = 64 := by norm_num
  have p4 : (2 : ℚ) ^ (4 : ℤ) = 16 := by norm_num
  have p9 : (2 : ℚ) ^ (9 : ℤ) = 512 := by norm_num
  have p48 : (2 : ℚ) ^ ((6 : ℤ) - 54) = 1 / 281474976710656 := by norm_num
  have p50 : (2 : ℚ) ^ ((4 : ℤ) - 54) = 1 / 1125899906842624 := by norm_num
  have p45 : (2 : ℚ) ^ ((9 : ℤ) - 54) = 1 / 35184372088832 := by norm_num
  have p40 : (2 : ℚ) ^ (-40 : ℤ) = 1 / 1099511627776 := by norm_num
  have p48' : (2 : ℚ) ^ (-48 : ℤ) = 1 / 281474976710656 := by norm_num
  -- step 1: territory_size - lowerSize
  have x1lo : (0 : ℚ) ≤ s - a := by linarith
  have x1hi : s - a ≤ ((b - a : ℤ) : ℚ) := by push_cast; linarith
  obtain ⟨t1, ht1, e1, l1, u1⟩ := round64_bounded (s - a) 6 (by norm_num) (by norm_num)
    (by rw [abs_of_nonneg x1lo, p6]; linarith)
  have t1lo : (0 : ℚ) ≤ t1 := by simpa using l1 0 (by simpa using x1lo)
  have t1hi : t1 ≤ ((b - a : ℤ) : ℚ) := u1 (b - a) x1hi
  -- step 2: times the difference of the densities
  have x2hi : t1 * ((db - da : ℤ) : ℚ) ≤ 0 := mul_nonpos_of_nonneg_of_nonpos t1lo hcq0
  have x2lo : ((b - a : ℤ) : ℚ) * ((db - da : ℤ) : ℚ) ≤ t1 * ((db - da : ℤ) : ℚ) :=
    mul_le_mul_of_nonpos_right t1hi hcq0
  obtain ⟨t2, ht2, e2, l2, u2⟩ := round64_bounded (t1 * ((db - da : ℤ) : ℚ)) 6 (by norm_num)
    (by norm_num) (by rw [abs_of_nonpos x2hi, p6]; linarith)
  have t2hi : t2 ≤ 0 := by simpa using u2 0 (by simpa using x2hi)
  have t2lo : ((b - a : ℤ) : ℚ) * ((db - da : ℤ) : ℚ) ≤ t2 := by
    have := l2 ((b - a) * (db - da)) (by push_cast; push_cast at x2lo; exact x2lo)
    push_cast at this ⊢
    exact this
  -- step 3: over the difference of the sizes
  have hw0 : ((b - a : ℤ) : ℚ) ≠ 0 := by linarith
  have hwpos : (0 : ℚ) < ((b - a : ℤ) : ℚ) := by linarith
  have x3hi : t2 / ((b - a : ℤ) : ℚ) ≤ 0 := div_nonpos_of_nonpos_of_nonneg t2hi (le_of_lt hwpos)
  have x3lo : ((db - da : ℤ) : ℚ) ≤ t2 / ((b - a : ℤ) : ℚ) := by
    rw [le_div_iff₀ hwpos]
    linarith
  obtain ⟨t3, ht3, e3, l3, u3⟩ := round64_bounded (t2 / ((b - a : ℤ) : ℚ)) 4 (by norm_num)
    (by norm_num) (by rw [abs_of_nonpos x3hi, p4]; linarith)
  have t3hi : t3 ≤ 0 := by simpa using u3 0 (by simpa using x3hi)
  have t3lo : ((db - da : ℤ) : ℚ) ≤ t3 := l3 (db - da) x3lo
  -- step 4: plus the lower density
  have x4lo : (db : ℚ) ≤ (da : ℚ) + t3 := by push_cast at t3lo; linarith
  have x4hi : (da : ℚ) + t3 ≤ (da : ℚ) := by linarith
  obtain ⟨t4, ht4, e4, l4, u4⟩ := round64_bounded ((da : ℚ) + t3) 6 (by norm_num) (by norm_num)
    (by rw [abs_of_nonneg (by linarith), p6]; linarith)
  have t4lo : (db : ℚ) ≤ t4 := l4 db x4lo
  have t4hi : t4 ≤ (da : ℚ) := u4 da x4hi
  -- step 5: times 10
  obtain ⟨t5, ht5, e5, l5, u5⟩ := round64_bounded (t4 * 10) 9 (by norm_num) (by norm_num)
    (by rw [abs_of_nonneg (by linarith), p9]; linarith)
  have t5lo : ((10 * db : ℤ) : ℚ) ≤ t5 := l5 (10 * db) (by push_cast; linarith)
  have t5hi : t5 ≤ ((10 * da : ℤ) : ℚ) := u5 (10 * da) (by push_cast; linarith)
  -- Math.round
  have nlo : 10 * db ≤ ⌊t5 + 1 / 2⌋ := by
    rw [Int.le_floor]
    linarith
  have nhi : ⌊t5 + 1 / 2⌋ ≤ 10 * da := by
    have : ⌊t5 + 1 / 2⌋ < 10 * da + 1 := by
      rw [Int.floor_lt]
      push_cast
      push_cast at t5hi
      linarith
    omega
  have nloq : (10 : ℚ) * db ≤ ((⌊t5 + 1 / 2⌋ : ℤ) : ℚ) := by exact_mod_cast nlo
  have nhiq : ((⌊t5 + 1 / 2⌋ : ℤ) : ℚ) ≤ 10 * da := by exact_mod_cast nhi
  -- step 6: over 10
  obtain ⟨r, hr, e6, l6, u6⟩ := round64_bounded (((⌊t5 + 1 / 2⌋ : ℤ) : ℚ) / 10) 6 (by norm_num)
    (by norm_num) (by rw [abs_of_nonneg (by linarith), p6]; linarith)
  have rlo : (db : ℚ) ≤ r := l6 db (by linarith)
  have rhi : r ≤ (da : ℚ) := u6 da (by linarith)
  refine ⟨t5, r, ?_, hr, ?_, ?_, rlo, rhi⟩
  · unfold interpolate
    rw [ew, ec, JSNum.sub_fin, ht1, JSNum.mul_fin, ht2, JSNum.div_fin _ _ hw0, ht3, JSNum.add_fin, ht4,
      JSNum.mul_fin, ht5, JSNum.round_fin, JSNum.div_fin _ _ (by norm_num), hr]
  · -- the accumulated error
    rw [p48] at e1 e2 e4
    rw [p50] at e3
    rw [p45] at e5
    rw [p40]
    have hq : |(t2 - t1 * ((db - da : ℤ) : ℚ) + (t1 - (s - a)) * ((db - da : ℤ) : ℚ))
        / ((b - a : ℤ) : ℚ)| ≤ 16 / 281474976710656 := by
      rw [abs_div, abs_of_pos hwpos]
      have hn : |t2 - t1 * ((db - da : ℤ) : ℚ) + (t1 - (s - a)) * ((db - da : ℤ) : ℚ)|
          ≤ 16 / 281474976710656 := by
        have m1 : |(t1 - (s - a)) * ((db - da : ℤ) : ℚ)| ≤ 1 / 281474976710656 * 15 := by
          rw [abs_mul]
          exact mul_le_mul e1 (by rw [abs_of_nonpos hcq0]; linarith) (abs_nonneg _)
            (by norm_num)
        have := abs_add (t2 - t1 * ((db - da : ℤ) : ℚ)) ((t1 - (s - a)) * ((db - da : ℤ) : ℚ))
        linarith
      calc _ ≤ (16 / 281474976710656) / ((b - a : ℤ) : ℚ) :=
            div_le_div_of_nonneg_right hn (le_of_lt hwpos)
        _ ≤ 16 / 281474976710656 := div_le_self (by norm_num) hwq
    have key : t5 - 10 * ((da : ℚ) + (s - a) * ((db : ℚ) - da) / ((b : ℚ) - a))
        = (t5 - t4 * 10) + 10 * (t4 - ((da : ℚ) + t3)) + 10 * (t3 - t2 / ((b - a : ℤ) : ℚ))
          + 10 * ((t2 - t1 * ((db - da : ℤ) : ℚ) + (t1 - (s - a)) * ((db - da : ℤ) : ℚ))
              / ((b - a : ℤ) : ℚ)) := by
      have hw0' : (b : ℚ) - a ≠ 0 := by
        have := hw0
        push_cast at this
        exact this
      push_cast
      field_simp
      ring
    rw [key]
    rw [abs_le] at e3 e4 e5 hq ⊢
    constructor <;> linarith
  · rw [p48] at e6
    rw [p48']
    exact e6

end DensityCalculator
namespace DensityCalculator

open JSNum

/-! ## The specification's vocabulary on `greenCells` -/

theorem mem_sizes_iff (x : ℚ) :
    x ∈ greenCells.map Prod.fst ↔ x = 1 ∨ x = 5 ∨ x = 15 ∨ x = 30 ∨ x = 60 := by
  simp only [greenCells, List.map_cons, List.map_nil, List.mem_cons, List.mem_singleton,
    List.not_mem_nil]
  tauto

theorem isMaxDensity_iff (s d : ℚ) :
    IsMaxDensity s d ↔
      (s = 1 ∧ d = 35) ∨ (s = 5 ∧ d = 25) ∨ (s = 15 ∧ d = 22) ∨ (s = 30 ∧ d = 20)
        ∨ (s = 60 ∧ d = 20) := by
  constructor
  · rintro ⟨hmem, hmax⟩
    have m1 := hmax (1, 35) (by decide)
    have m5 := hmax (5, 25) (by decide)
    have m15 := hmax (15, 22) (by decide)
    simp only [greenCells, List.mem_cons, List.mem_singleton, List.not_mem_nil, Prod.mk.injEq,
      or_false] at hmem
    rcases hmem with h | h | h | h | h | h | h | h | h | h | h | h <;> obtain ⟨rfl, rfl⟩ := h
    · exact absurd (m1 rfl) (by norm_num)
    · exact absurd (m1 rfl) (by norm_num)
    · exact absurd (m1 rfl) (by norm_num)
    · exact absurd (m1 rfl) (by norm_num)
    · exact Or.inl ⟨rfl, rfl⟩
    · exact absurd (m5 rfl) (by norm_num)
    · exact absurd (m5 rfl) (by norm_num)
    · exact Or.inr (Or.inl ⟨rfl, rfl⟩)
    · exact absurd (m15 rfl) (by norm_num)
    · exact Or.inr (Or.inr (Or.inl ⟨rfl, rfl⟩))
    · exact Or.inr (Or.inr (Or.inr (Or.inl ⟨rfl, rfl⟩)))
    · exact Or.inr (Or.inr (Or.inr (Or.inr ⟨rfl, rfl⟩)))
  · rintro (⟨rfl, rfl⟩ | ⟨rfl, rfl⟩ | ⟨rfl, rfl⟩ | ⟨rfl, rfl⟩ | ⟨rfl, rfl⟩) <;> decide

/-- In exact arithmetic `⌊10 x + 1/2⌋ / 10` is `x` rounded to the nearest 0.1, a
tie going up. -/
theorem isNearestTenth_round (x : ℚ) :
    IsNearestTenth x ((⌊x * 10 + 1 / 2⌋ : ℤ) / 10) := by
  have h1 : ((⌊x * 10 + 1 / 2⌋ : ℤ) : ℚ) ≤ x * 10 + 1 / 2 := Int.floor_le _
  have h2 : x * 10 + 1 / 2 < ((⌊x * 10 + 1 / 2⌋ : ℤ) : ℚ) + 1 := Int.lt_floor_add_one _
  refine ⟨?_, ?_, ?_⟩
  · rw [div_mul_cancel₀ _ (by norm_num : (10 : ℚ) ≠ 0), Int.floor_intCast]
  · linarith
  · linarith

/-! ## The claims -/

/-- C1: at every exact table size `s` in {1, 5, 15, 30, 60}, `getDensityValue s`
is the maximum density recorded for `s` in `greenCells`; the five values are
35, 25, 22, 20 and 20. -/
theorem getDensityValue_exact_size (s d : ℚ) (hs : s ∈ [(1 : ℚ), 5, 15, 30, 60])
    (hd : IsMaxDensity s d) :
    getDensityValue s = fin d ∧
      getDensityValue 1 = fin 35 ∧ getDensityValue 5 = fin 25 ∧ getDensityValue 15 = fin 22 ∧
      getDensityValue 30 = fin 20 ∧ getDensityValue 60 = fin 20 := by
  refine ⟨?_, by decide, by decide, by decide, by decide, by decide⟩
  rcases (isMaxDensity_iff s d).mp hd with h | h | h | h | h <;> obtain ⟨rfl, rfl⟩ := h <;> decide

/-- Witness of C1 at the size 5, whose maximum density is 25. -/
theorem getDensityValue_exact_size_witness :
    (5 : ℚ) ∈ [(1 : ℚ), 5, 15, 30, 60] ∧ IsMaxDensity 5 25 ∧
      (getDensityValue 5 = fin 25 ∧
        getDensityValue 1 = fin 35 ∧ getDensityValue 5 = fin 25 ∧ getDensityValue 15 = fin 22 ∧
        getDensityValue 30 = fin 20 ∧ getDensityValue 60 = fin 20) :=
  ⟨by decide, by decide, getDensityValue_exact_size 5 25 (by decide) (by decide)⟩

end DensityCalculator
namespace DensityCalculator

open JSNum

/-! ## Interpolation between two table sizes -/

theorem isMaxDensity_unique (s d d' : ℚ) (h : IsMaxDensity s d) (h' : IsMaxDensity s d') :
    d = d' :=
  le_antisymm (h'.2 (s, d) h.1 rfl) (h.2 (s, d') h'.1 rfl)

/-- Between two table sizes `a < b` with no table size in between, the greatest
table size below `s` is `a`. -/
theorem lower_eq_of_adjacent (s ls a b : ℚ) (ha : a ∈ greenCells.map Prod.fst)
    (hadj : ∀ x ∈ greenCells.map Prod.fst, x ≤ a ∨ b ≤ x) (h1 : a < s) (h2 : s < b)
    (hls : IsGreatest {x | x ∈ greenCells.map Prod.fst ∧ x < s} ls) : ls = a := by
  apply le_antisymm
  · rcases hadj ls hls.1.1 with h | h
    · exact h
    · have := hls.1.2
      linarith
  · exact hls.2 ⟨ha, h1⟩

/-- Between two table sizes `a < b` with no table size in between, the least
table size above `s` is `b`. -/
theorem upper_eq_of_adjacent (s us a b : ℚ) (hb : b ∈ greenCells.map Prod.fst)
    (hadj : ∀ x ∈ greenCells.map Prod.fst, x ≤ a ∨ b ≤ x) (h1 : a < s) (h2 : s < b)
    (hus : IsLeast {x | x ∈ greenCells.map Prod.fst ∧ s < x} us) : us = b := by
  apply le_antisymm
  · exact hus.2 ⟨hb, h2⟩
  · rcases hadj us hus.1.1 with h | h
    · have := hus.1.2
      linarith
    · exact h

theorem adjacent_1_5 : ∀ x ∈ greenCells.map Prod.fst, x ≤ (1 : ℚ) ∨ (5 : ℚ) ≤ x := by
  intro x hx
  rcases (mem_sizes_iff x).mp hx with h | h | h | h | h <;> subst h <;> norm_num

theorem adjacent_5_15 : ∀ x ∈ greenCells.map Prod.fst, x ≤ (5 : ℚ) ∨ (15 : ℚ) ≤ x := by
  intro x hx
  rcases (mem_sizes_iff x).mp hx with h | h | h | h | h <;> subst h <;> norm_num

theorem adjacent_15_30 : ∀ x ∈ greenCells.map Prod.fst, x ≤ (15 : ℚ) ∨ (30 : ℚ) ≤ x := by
  intro x hx
  rcases (mem_sizes_iff x).mp hx with h | h | h | h | h <;> subst h <;> norm_num

theorem adjacent_30_60 : ∀ x ∈ greenCells.map Prod.fst, x ≤ (30 : ℚ) ∨ (60 : ℚ) ≤ x := by
  intro x hx
  rcases (mem_sizes_iff x).mp hx with h | h | h | h | h <;> subst h <;> norm_num

/-- The result of lines 48 and 51 strictly between two sizes, against the exact
interpolant `I`: it is the double of `n / 10` for an integer `n` that is
`⌊10 I + 1/2⌋` up to an error of `2 ^ (-40)` in `10 I`, and it lies between the
two densities. -/
theorem interpolate_sandwich (s : ℚ) (a b da db : ℤ)
    (hab : a < b) (hw : b - a ≤ 60) (hdb : 0 ≤ db) (hd : db ≤ da) (hda : da ≤ 35)
    (hc : da - db ≤ 15) (hp : (b - a) * (da - db) ≤ 60)
    (h1 : (a : ℚ) < s) (h2 : s < (b : ℚ)) :
    ∃ (n : ℤ) (r : ℚ),
      interpolate s a b da db = fin r
        ∧ round64 ((n : ℚ) / 10) = fin r
        ∧ |r - (n : ℚ) / 10| ≤ (2 : ℚ) ^ (-48 : ℤ)
        ∧ ⌊((da : ℚ) + (s - a) * ((db : ℚ) - da) / ((b : ℚ) - a)) * 10 + 1 / 2
            - (2 : ℚ) ^ (-40 : ℤ)⌋ ≤ n
        ∧ n ≤ ⌊((da : ℚ) + (s - a) * ((db : ℚ) - da) / ((b : ℚ) - a)) * 10 + 1 / 2
            + (2 : ℚ) ^ (-40 : ℤ)⌋
        ∧ (db : ℚ) ≤ r ∧ r ≤ (da : ℚ) := by
  obtain ⟨t, r, he, hr, herr, e6, rlo, rhi⟩ :=
    interpolate_analysis s a b da db hab hw hdb hd hda hc hp h1 h2
  rw [abs_le] at herr
  refine ⟨⌊t + 1 / 2⌋, r, he, hr, e6, ?_, ?_, rlo, rhi⟩
  · apply Int.floor_mono
    linarith
  · apply Int.floor_mono
    linarith

/-- C2, amended: for a size `s` with `1 < s < 60` that is not a table size, with
`ls` the greatest table size below `s`, `us` the least table size above `s`, and
`ld`, `ud` the maximum densities of those sizes, `getDensityValue s` is the
formula `ld + (s - ls) * (ud - ld) / (us - ls)` evaluated in binary64 and
rounded to 0.1: it is the double nearest to `n / 10` (within `2 ^ (-48)` of it)
for an integer `n` that is the formula times 10 rounded to the nearest integer,
a tie going to `+∞`, up to an error of `2 ^ (-40)` in the value rounded; the
formula is the piecewise-linear interpolant through (1, 35), (5, 25), (15, 22),
(30, 20), (60, 20). -/
theorem getDensityValue_interpolates_binary64 (s ls us ld ud : ℚ) (h1 : 1 < s) (h60 : s < 60)
    (hs : s ∉ greenCells.map Prod.fst)
    (hls : IsGreatest {x | x ∈ greenCells.map Prod.fst ∧ x < s} ls)
    (hus : IsLeast {x | x ∈ greenCells.map Prod.fst ∧ s < x} us)
    (hld : IsMaxDensity ls ld) (hud : IsMaxDensity us ud) :
    ∃ (n : ℤ) (r : ℚ),
      getDensityValue s = fin r
        ∧ round64 ((n : ℚ) / 10) = fin r
        ∧ |r - (n : ℚ) / 10| ≤ (2 : ℚ) ^ (-48 : ℤ)
        ∧ ⌊(ld + (s - ls) * (ud - ld) / (us - ls)) * 10 + 1 / 2 - (2 : ℚ) ^ (-40 : ℤ)⌋ ≤ n
        ∧ n ≤ ⌊(ld + (s - ls) * (ud - ld) / (us - ls)) * 10 + 1 / 2 + (2 : ℚ) ^ (-40 : ℤ)⌋
        ∧ ld + (s - ls) * (ud - ld) / (us - ls) = interpolant s := by
  have n5 : s ≠ 5 := fun h => hs ((mem_sizes_iff s).mpr (by simp [h]))
  have n15 : s ≠ 15 := fun h => hs ((mem_sizes_iff s).mpr (by simp [h]))
  have n30 : s ≠ 30 := fun h => hs ((mem_sizes_iff s).mpr (by simp [h]))
  rcases lt_or_gt_of_ne n5 with c5 | c5
  · obtain rfl := lower_eq_of_adjacent s ls 1 5 (by decide) adjacent_1_5 h1 c5 hls
    obtain rfl := upper_eq_of_adjacent s us 1 5 (by decide) adjacent_1_5 h1 c5 hus
    obtain rfl := isMaxDensity_unique 1 ld 35 hld (by decide)
    obtain rfl := isMaxDensity_unique 5 ud 25 hud (by decide)
    obtain ⟨n, r, he, hr, e6, lo, hi, -, -⟩ := interpolate_sandwich s 1 5 35 25 (by norm_num)
      (by norm_num) (by norm_num) (by norm_num) (by norm_num) (by norm_num) (by norm_num)
      (by exact_mod_cast h1) (by exact_mod_cast c5)
    simp only [Int.cast_one, Int.cast_ofNat] at he hr e6 lo hi
    refine ⟨n, r, ?_, hr, e6, lo, hi, ?_⟩
    · rw [getDensityValue_1_5 s h1 c5]
      exact he
    · simp [interpolant, lineThrough, le_of_lt c5]
  rcases lt_or_gt_of_ne n15 with c15 | c15
  · obtain rfl := lower_eq_of_adjacent s ls 5 15 (by decide) adjacent_5_15 c5 c15 hls
    obtain rfl := upper_eq_of_adjacent s us 5 15 (by decide) adjacent_5_15 c5 c15 hus
    obtain rfl := isMaxDensity_unique 5 ld 25 hld (by decide)
    obtain rfl := isMaxDensity_unique 15 ud 22 hud (by decide)
    obtain ⟨n, r, he, hr, e6, lo, hi, -, -⟩ := interpolate_sandwich s 5 15 25 22 (by norm_num)
      (by norm_num) (by norm_num) (by norm_num) (by norm_num) (by norm_num) (by norm_num)
      (by exact_mod_cast c5) (by exact_mod_cast c15)
    simp only [Int.cast_one, Int.cast_ofNat] at he hr e6 lo hi
    refine ⟨n, r, ?_, hr, e6, lo, hi, ?_⟩
    · rw [getDensityValue_5_15 s c5 c15]
      exact he
    · simp [interpolant, lineThrough, not_le_of_lt c5, le_of_lt c15]
  rcases lt_or_gt_of_ne n30 with c30 | c30
  · obtain rfl := lower_eq_of_adjacent s ls 15 30 (by decide) adjacent_15_30 c15 c30 hls
    obtain rfl := upper_eq_of_adjacent s us 15 30 (by decide) adjacent_15_30 c15 c30 hus
    obtain rfl := isMaxDensity_unique 15 ld 22 hld (by decide)
    obtain rfl := isMaxDensity_unique 30 ud 20 hud (by decide)
    obtain ⟨n, r, he, hr, e6, lo, hi, -, -⟩ := interpolate_sandwich s 15 30 22 20 (by norm_num)
      (by norm_num) (by norm_num) (by norm_num) (by norm_num) (by norm_num) (by norm_num)
      (by exact_mod_cast c15) (by exact_mod_cast c30)
    simp only [Int.cast_one, Int.cast_ofNat] at he hr e6 lo hi
    refine ⟨n, r, ?_, hr, e6, lo, hi, ?_⟩
    · rw [getDensityValue_15_30 s c15 c30]
      exact he
    · have c5' : ¬ s ≤ 5 := by linarith
      simp [interpolant, lineThrough, c5', not_le_of_lt c15, le_of_lt c30]
  · obtain rfl := lower_eq_of_adjacent s ls 30 60 (by decide) adjacent_30_60 c30 h60 hls
    obtain rfl := upper_eq_of_adjacent s us 30 60 (by decide) adjacent_30_60 c30 h60 hus
    obtain rfl := isMaxDensity_unique 30 ld 20 hld (by decide)
    obtain rfl := isMaxDensity_unique 60 ud 20 hud (by decide)
    obtain ⟨n, r, he, hr, e6, lo, hi, -, -⟩ := interpolate_sandwich s 30 60 20 20 (by norm_num)
      (by norm_num) (by norm_num) (by norm_num) (by norm_num) (by norm_num) (by norm_num)
      (by exact_mod_cast c30) (by exact_mod_cast h60)
    simp only [Int.cast_one, Int.cast_ofNat] at he hr e6 lo hi
    refine ⟨n, r, ?_, hr, e6, lo, hi, ?_⟩
    · rw [getDensityValue_30_60 s c30 h60]
      exact he
    · have c5' : ¬ s ≤ 5 := by linarith
      have c15' : ¬ s ≤ 15 := by linarith
      simp [interpolant, lineThrough, c5', c15', not_le_of_lt c30]

/-- Witness of C2 at the size 10, between the table sizes 5 and 15. -/
theorem getDensityValue_interpolates_binary64_witness :
    ∃ (n : ℤ) (r : ℚ),
      getDensityValue 10 = fin r
        ∧ round64 ((n : ℚ) / 10) = fin r
        ∧ |r - (n : ℚ) / 10| ≤ (2 : ℚ) ^ (-48 : ℤ)
        ∧ ⌊((25 : ℚ) + (10 - 5) * (22 - 25) / (15 - 5)) * 10 + 1 / 2 - (2 : ℚ) ^ (-40 : ℤ)⌋ ≤ n
        ∧ n ≤ ⌊((25 : ℚ) + (10 - 5) * (22 - 25) / (15 - 5)) * 10 + 1 / 2 + (2 : ℚ) ^ (-40 : ℤ)⌋
        ∧ (25 : ℚ) + (10 - 5) * (22 - 25) / (15 - 5) = interpolant 10 :=
  getDensityValue_interpolates_binary64 10 5 15 25 22 (by norm_num) (by norm_num) (by decide)
    ⟨⟨by decide, by norm_num⟩, fun x hx => by
      rcases adjacent_5_15 x hx.1 with h | h
      · exact h
      · have := hx.2
        rcases (mem_sizes_iff x).mp hx.1 with e | e | e | e | e <;> subst e <;> norm_num at this ⊢⟩
    ⟨⟨by decide, by norm_num⟩, fun x hx => by
      have := hx.2
      rcases (mem_sizes_iff x).mp hx.1 with e | e | e | e | e <;> subst e <;> norm_num at this ⊢⟩
    (by decide) (by decide)

end DensityCalculator

namespace DensityCalculator

open JSNum

/-! ## Evaluation at given doubles -/

theorem two_pow_53_lt : (2 : ℚ) ^ (53 : ℕ) < (2 : ℚ) ^ (1024 : ℕ) :=
  pow_lt_pow_right₀ (by norm_num) (by norm_num)

/-- A small value `m * 2 ^ k` with a significand of at most 53 bits is
unchanged by `round64`. -/
theorem round64_exact_small (x : ℚ) (m k : ℤ) (hx : x = (m : ℚ) * (2 : ℚ) ^ k)
    (hm1 : -2 ^ (53 : ℕ) < m) (hm2 : m < 2 ^ (53 : ℕ)) (hk : -1074 ≤ k)
    (h1 : -2 ^ (53 : ℕ) < x) (h2 : x < 2 ^ (53 : ℕ)) : round64 x = fin x :=
  round64_exact x m k hx (abs_lt.mpr ⟨hm1, hm2⟩) hk
    (lt_trans (abs_lt.mpr ⟨h1, h2⟩) two_pow_53_lt)

/-- The double of a small positive value whose exponent and rounded significand
are known. -/
theorem round64_eq_of_pos (x : ℚ) (e m : ℤ) (he : -1022 ≤ e) (h1 : (2 : ℚ) ^ e ≤ x)
    (h2 : x < (2 : ℚ) ^ (e + 1)) (hm1 : -(1 / 2) < x / (2 : ℚ) ^ (e - 52) - m)
    (hm2 : x / (2 : ℚ) ^ (e - 52) - m < 1 / 2) (hm0 : 0 ≤ m)
    (hf : (m : ℚ) * (2 : ℚ) ^ (e - 52) < 2 ^ (53 : ℕ)) :
    round64 x = fin ((m : ℚ) * (2 : ℚ) ^ (e - 52)) := by
  have hx : 0 < x := lt_of_lt_of_le (by positivity) h1
  have hy : (0 : ℚ) ≤ (m : ℚ) * (2 : ℚ) ^ (e - 52) :=
    mul_nonneg (by exact_mod_cast hm0) (by positivity)
  refine round64_eq_of x e m he ?_ ?_ (abs_lt.mpr ⟨hm1, hm2⟩) ?_
  · rw [abs_of_pos hx]
    exact h1
  · rw [abs_of_pos hx]
    exact h2
  · rw [abs_of_nonneg hy]
    exact lt_trans hf two_pow_53_lt

theorem round64_348_tenths :
    round64 (348 / 10) = fin (2448832297382707 / 70368744177664) := by
  rw [round64_eq_of_pos (348 / 10) 5 4897664594765414 (by norm_num) (by norm_num) (by norm_num)
    (by norm_num) (by norm_num) (by norm_num) (by norm_num)]
  norm_num

theorem round64_347_tenths :
    round64 (347 / 10) = fin (2441795422964941 / 70368744177664) := by
  rw [round64_eq_of_pos (347 / 10) 5 4883590845929882 (by norm_num) (by norm_num) (by norm_num)
    (by norm_num) (by norm_num) (by norm_num) (by norm_num)]
  norm_num

/-- The function at the double nearest to 1.1: the sum `35 + (-0.25000000000000022)`
rounds to 34.75, ten times that is the tie 347.5, and the result is the double
of 34.8. -/
theorem getDensityValue_at_double_1_1 :
    getDensityValue (2476979795053773 / 2251799813685248) = round64 (348 / 10) := by
  rw [getDensityValue_1_5 _ (by norm_num) (by norm_num)]
  unfold interpolate
  have e1 : sub (fin (2476979795053773 / 2251799813685248)) (fin 1)
      = fin (225179981368525 / 2251799813685248) := by
    rw [JSNum.sub_fin]
    have : (2476979795053773 / 2251799813685248 : ℚ) - 1
        = 225179981368525 / 2251799813685248 := by norm_num
    rw [this]
    exact round64_exact_small _ 225179981368525 (-51) (by norm_num) (by norm_num)
      (by norm_num) (by norm_num) (by norm_num) (by norm_num)
  have e2 : sub (fin 25) (fin 35) = fin (-10) := by
    rw [JSNum.sub_fin]
    have : (25 : ℚ) - 35 = -10 := by norm_num
    rw [this]
    exact round64_exact_small _ (-10) 0 (by norm_num) (by norm_num) (by norm_num)
      (by norm_num) (by norm_num) (by norm_num)
  have e3 : sub (fin 5) (fin 1) = fin 4 := by
    rw [JSNum.sub_fin]
    have : (5 : ℚ) - 1 = 4 := by norm_num
    rw [this]
    exact round64_exact_small _ 4 0 (by norm_num) (by norm_num) (by norm_num)
      (by norm_num) (by norm_num) (by norm_num)
  have e4 : mul (fin (225179981368525 / 2251799813685248)) (fin (-10))
      = fin (-1125899906842625 / 1125899906842624) := by
    rw [JSNum.mul_fin]
    have : (225179981368525 / 2251799813685248 : ℚ) * (-10)
        = -1125899906842625 / 1125899906842624 := by norm_num
    rw [this]
    exact round64_exact_small _ (-1125899906842625) (-50) (by norm_num) (by norm_num)
      (by norm_num) (by norm_num) (by norm_num) (by norm_num)
  have e5 : div (fin (-1125899906842625 / 1125899906842624)) (fin 4)
      = fin (-1125899906842625 / 4503599627370496) := by
    rw [JSNum.div_fin _ _ (by norm_num)]
    have : (-1125899906842625 / 1125899906842624 : ℚ) / 4
        = -1125899906842625 / 4503599627370496 := by norm_num
    rw [this]
    exact round64_exact_small _ (-1125899906842625) (-52) (by norm_num) (by norm_num)
      (by norm_num) (by norm_num) (by norm_num) (by norm_num)
  have e6 : add (fin 35) (fin (-1125899906842625 / 4503599627370496)) = fin (139 / 4) := by
    rw [JSNum.add_fin]
    have : (35 : ℚ) + -1125899906842625 / 4503599627370496
        = 156500087051124735 / 4503599627370496 := by norm_num
    rw [this, round64_eq_of_pos _ 5 4890627720347648 (by norm_num) (by norm_num) (by norm_num)
      (by norm_num) (by norm_num) (by norm_num) (by norm_num)]
    norm_num
  have e7 : mul (fin (139 / 4)) (fin 10) = fin (695 / 2) := by
    rw [JSNum.mul_fin]
    have : (139 / 4 : ℚ) * 10 = 695 / 2 := by norm_num
    rw [this]
    exact round64_exact_small _ 695 (-1) (by norm_num) (by norm_num)
      (by norm_num) (by norm_num) (by norm_num) (by norm_num)
  have e8 : round (fin (695 / 2)) = fin 348 := by
    rw [JSNum.round_fin]
    norm_num
  rw [e1, e2, e3, e4, e5, e6, e7, e8, JSNum.div_fin _ _ (by norm_num)]

/-- C2, as stated, fails at the double nearest to 1.1, a size between 1 and 5
that is not a table size: the exact formula there is just below 34.75 and its
nearest tenth is 34.7, but the function returns the double of 34.8, which is
neither 34.7 nor the double of 34.7. -/
theorem getDensityValue_not_nearest_tenth :
    (1 : ℚ) < 2476979795053773 / 2251799813685248
      ∧ (2476979795053773 / 2251799813685248 : ℚ) < 5
      ∧ IsNearestTenth
          (35 + ((2476979795053773 / 2251799813685248 : ℚ) - 1) * (25 - 35) / (5 - 1))
          (347 / 10)
      ∧ getDensityValue (2476979795053773 / 2251799813685248)
          = fin (2448832297382707 / 70368744177664)
      ∧ getDensityValue (2476979795053773 / 2251799813685248) ≠ fin (347 / 10)
      ∧ getDensityValue (2476979795053773 / 2251799813685248) ≠ round64 (347 / 10)
      ∧ ¬ IsNearestTenth
          (35 + ((2476979795053773 / 2251799813685248 : ℚ) - 1) * (25 - 35) / (5 - 1))
          (2448832297382707 / 70368744177664) := by
  have hv : getDensityValue (2476979795053773 / 2251799813685248)
      = fin (2448832297382707 / 70368744177664) := by
    rw [getDensityValue_at_double_1_1, round64_348_tenths]
  refine ⟨by norm_num, by norm_num, ?_, hv, ?_, ?_, ?_⟩
  · unfold IsNearestTenth
    refine ⟨?_, by norm_num, by norm_num⟩
    have : (347 / 10 : ℚ) * 10 = ((347 : ℤ) : ℚ) := by norm_num
    rw [this, Int.floor_intCast]
  · rw [hv]
    intro h
    have := JSNum.fin.inj h
    norm_num at this
  · rw [hv, round64_347_tenths]
    intro h
    have := JSNum.fin.inj h
    norm_num at this
  · unfold IsNearestTenth
    rintro ⟨h, -, -⟩
    have h1 : (2448832297382707 / 70368744177664 : ℚ) * 10
        = 12244161486913535 / 35184372088832 := by norm_num
    rw [h1] at h
    have h2 : ⌊(12244161486913535 / 35184372088832 : ℚ)⌋ = 347 := by
      rw [Int.floor_eq_iff]
      constructor <;> norm_num
    rw [h2] at h
    norm_num at h

end DensityCalculator
namespace DensityCalculator

open JSNum

/-! ## Sizes outside the table's range -/

/-- C3: at the size 0.5, below the least table size, `getDensityValue` does not
return the clamped value 35 of `getDensityValue 1`: both bounds are the size 1,
the interpolation divides zero by zero and the result is `NaN`. -/
theorem getDensityValue_half_is_nan :
    getDensityValue (1 / 2) = nan ∧ getDensityValue 1 = fin 35
      ∧ getDensityValue (1 / 2) ≠ getDensityValue 1 := by
  have h : getDensityValue (1 / 2) = nan := getDensityValue_below (1 / 2) (by norm_num)
  have h1 : getDensityValue 1 = fin 35 := by decide
  refine ⟨h, h1, ?_⟩
  rw [h, h1]
  exact fun e => JSNum.noConfusion e

/-- C4: at the size 100, above the greatest table size, `getDensityValue` does
not return the clamped value 20 of `getDensityValue 60`: both bounds are the
size 60, the interpolation divides zero by zero and the result is `NaN`. -/
theorem getDensityValue_hundred_is_nan :
    getDensityValue 100 = nan ∧ getDensityValue 60 = fin 20
      ∧ getDensityValue 100 ≠ getDensityValue 60 := by
  have h : getDensityValue 100 = nan := getDensityValue_above 100 (by norm_num)
  have h1 : getDensityValue 60 = fin 20 := by decide
  refine ⟨h, h1, ?_⟩
  rw [h, h1]
  exact fun e => JSNum.noConfusion e

/-- C5: at the positive size 0.25 the exact-size branch is not taken, the bounds
`lowerSize` and `upperSize` are both 1, and the interpolation quotient is
evaluated with the divisor `upperSize - lowerSize = 0`: no guard returns the
bound's density, and the zero numerator over the zero divisor is `NaN`. -/
theorem interpolationDivisor_quarter_is_zero :
    (1 / 4 : ℚ) ∉ uniqueTerritorySizes greenCells
      ∧ lowerSize greenCells (1 / 4) = fin 1
      ∧ upperSize greenCells (1 / 4) = fin 1
      ∧ interpolationDivisor greenCells (1 / 4) = fin 0
      ∧ div (mul (sub (fin (1 / 4)) (lowerSize greenCells (1 / 4)))
              (sub (maxDensityAt greenCells (upperSize greenCells (1 / 4)))
                (maxDensityAt greenCells (lowerSize greenCells (1 / 4)))))
            (interpolationDivisor greenCells (1 / 4)) = nan
      ∧ getDensityValue (1 / 4) = nan := by
  obtain ⟨hl, hu⟩ := bounds_below greenCells (1 / 4) uniqueTerritorySizes_greenCells
    (by norm_num)
  have hn : (1 / 4 : ℚ) ∉ uniqueTerritorySizes greenCells :=
    not_mem_sizes _ _ uniqueTerritorySizes_greenCells (by norm_num) (by norm_num) (by norm_num)
      (by norm_num) (by norm_num)
  have hd : interpolationDivisor greenCells (1 / 4) = fin 0 := by
    simp only [interpolationDivisor, hl, hu]
    rw [JSNum.sub_fin, sub_self, round64_zero]
  refine ⟨hn, hl, hu, hd, ?_, getDensityValue_below _ (by norm_num)⟩
  rw [hd, hl, hu, maxDensityAt_greenCells_1, JSNum.sub_fin 35 35, sub_self, round64_zero,
    JSNum.mul_zero_div_zero]

/-! ## Between two adjacent table sizes -/

/-- C6: for a size `s` strictly between two adjacent table sizes `a < s < b`,
`getDensityValue s` lies between the maximum densities of `a` and `b`,
inclusive, rounding included. -/
theorem getDensityValue_between_adjacent (s a b da db : ℚ)
    (hab : (a, b) ∈ [((1 : ℚ), (5 : ℚ)), (5, 15), (15, 30), (30, 60)])
    (h1 : a < s) (h2 : s < b) (hda : IsMaxDensity a da) (hdb : IsMaxDensity b db) :
    ∃ r, getDensityValue s = fin r ∧ min da db ≤ r ∧ r ≤ max da db := by
  simp only [List.mem_cons, List.mem_singleton, List.not_mem_nil, Prod.mk.injEq, or_false] at hab
  rcases hab with ⟨rfl, rfl⟩ | ⟨rfl, rfl⟩ | ⟨rfl, rfl⟩ | ⟨rfl, rfl⟩
  · obtain rfl := isMaxDensity_unique 1 da 35 hda (by decide)
    obtain rfl := isMaxDensity_unique 5 db 25 hdb (by decide)
    obtain ⟨n, r, he, -, -, -, -, lo, hi⟩ := interpolate_sandwich s 1 5 35 25 (by norm_num)
      (by norm_num) (by norm_num) (by norm_num) (by norm_num) (by norm_num) (by norm_num)
      (by exact_mod_cast h1) (by exact_mod_cast h2)
    simp only [Int.cast_one, Int.cast_ofNat] at he lo hi
    refine ⟨r, ?_, ?_, ?_⟩
    · rw [getDensityValue_1_5 s h1 h2]
      exact he
    · rw [min_eq_right (by norm_num)]
      exact lo
    · rw [max_eq_left (by norm_num)]
      exact hi
  · obtain rfl := isMaxDensity_unique 5 da 25 hda (by decide)
    obtain rfl := isMaxDensity_unique 15 db 22 hdb (by decide)
    obtain ⟨n, r, he, -, -, -, -, lo, hi⟩ := interpolate_sandwich s 5 15 25 22 (by norm_num)
      (by norm_num) (by norm_num) (by norm_num) (by norm_num) (by norm_num) (by norm_num)
      (by exact_mod_cast h1) (by exact_mod_cast h2)
    simp only [Int.cast_one, Int.cast_ofNat] at he lo hi
    refine ⟨r, ?_, ?_, ?_⟩
    · rw [getDensityValue_5_15 s h1 h2]
      exact he
    · rw [min_eq_right (by norm_num)]
      exact lo
    · rw [max_eq_left (by norm_num)]
      exact hi
  · obtain rfl := isMaxDensity_unique 15 da 22 hda (by decide)
    obtain rfl := isMaxDensity_unique 30 db 20 hdb (by decide)
    obtain ⟨n, r, he, -, -, -, -, lo, hi⟩ := interpolate_sandwich s 15 30 22 20 (by norm_num)
      (by norm_num) (by norm_num) (by norm_num) (by norm_num) (by norm_num) (by norm_num)
      (by exact_mod_cast h1) (by exact_mod_cast h2)
    simp only [Int.cast_one, Int.cast_ofNat] at he lo hi
    refine ⟨r, ?_, ?_, ?_⟩
    · rw [getDensityValue_15_30 s h1 h2]
      exact he
    · rw [min_eq_right (by norm_num)]
      exact lo
    · rw [max_eq_left (by norm_num)]
      exact hi
  · obtain rfl := isMaxDensity_unique 30 da 20 hda (by decide)
    obtain rfl := isMaxDensity_unique 60 db 20 hdb (by decide)
    obtain ⟨n, r, he, -, -, -, -, lo, hi⟩ := interpolate_sandwich s 30 60 20 20 (by norm_num)
      (by norm_num) (by norm_num) (by norm_num) (by norm_num) (by norm_num) (by norm_num)
      (by exact_mod_cast h1) (by exact_mod_cast h2)
    simp only [Int.cast_one, Int.cast_ofNat] at he lo hi
    refine ⟨r, ?_, ?_, ?_⟩
    · rw [getDensityValue_30_60 s h1 h2]
      exact he
    · rw [min_self]
      exact lo
    · rw [max_self]
      exact hi

/-- Witness of C6 at the size 3, between the table sizes 1 and 5. -/
theorem getDensityValue_between_adjacent_witness :
    ∃ r, getDensityValue 3 = fin r ∧ min 35 25 ≤ r ∧ r ≤ max 35 25 :=
  getDensityValue_between_adjacent 3 1 5 35 25 (by decide) (by norm_num) (by norm_num)
    (by decide) (by decide)

end DensityCalculator

namespace DensityCalculator

open JSNum

/-! ## The value at 10, totality, and the total floor area -/

/-- The function at 10: every step is exact in binary64. -/
theorem getDensityValue_at_10 : getDensityValue 10 = fin (47 / 2) := by
  rw [getDensityValue_5_15 10 (by norm_num) (by norm_num)]
  unfold interpolate
  have e1 : sub (fin 10) (fin 5) = fin 5 := by
    rw [JSNum.sub_fin]
    have : (10 : ℚ) - 5 = 5 := by norm_num
    rw [this]
    exact round64_exact_small _ 5 0 (by norm_num) (by norm_num) (by norm_num)
      (by norm_num) (by norm_num) (by norm_num)
  have e2 : sub (fin 22) (fin 25) = fin (-3) := by
    rw [JSNum.sub_fin]
    have : (22 : ℚ) - 25 = -3 := by norm_num
    rw [this]
    exact round64_exact_small _ (-3) 0 (by norm_num) (by norm_num) (by norm_num)
      (by norm_num) (by norm_num) (by norm_num)
  have e3 : sub (fin 15) (fin 5) = fin 10 := by
    rw [JSNum.sub_fin]
    have : (15 : ℚ) - 5 = 10 := by norm_num
    rw [this]
    exact round64_exact_small _ 10 0 (by norm_num) (by norm_num) (by norm_num)
      (by norm_num) (by norm_num) (by norm_num)
  have e4 : mul (fin 5) (fin (-3)) = fin (-15) := by
    rw [JSNum.mul_fin]
    have : (5 : ℚ) * -3 = -15 := by norm_num
    rw [this]
    exact round64_exact_small _ (-15) 0 (by norm_num) (by norm_num) (by norm_num)
      (by norm_num) (by norm_num) (by norm_num)
  have e5 : div (fin (-15)) (fin 10) = fin (-3 / 2) := by
    rw [JSNum.div_fin _ _ (by norm_num)]
    have : (-15 : ℚ) / 10 = -3 / 2 := by norm_num
    rw [this]
    exact round64_exact_small _ (-3) (-1) (by norm_num) (by norm_num) (by norm_num)
      (by norm_num) (by norm_num) (by norm_num)
  have e6 : add (fin 25) (fin (-3 / 2)) = fin (47 / 2) := by
    rw [JSNum.add_fin]
    have : (25 : ℚ) + -3 / 2 = 47 / 2 := by norm_num
    rw [this]
    exact round64_exact_small _ 47 (-1) (by norm_num) (by norm_num) (by norm_num)
      (by norm_num) (by norm_num) (by norm_num)
  have e7 : mul (fin (47 / 2)) (fin 10) = fin 235 := by
    rw [JSNum.mul_fin]
    have : (47 / 2 : ℚ) * 10 = 235 := by norm_num
    rw [this]
    exact round64_exact_small _ 235 0 (by norm_num) (by norm_num) (by norm_num)
      (by norm_num) (by norm_num) (by norm_num)
  have e8 : round (fin 235) = fin 235 := by
    rw [JSNum.round_fin]
    norm_num
  have e9 : div (fin 235) (fin 10) = fin (47 / 2) := by
    rw [JSNum.div_fin _ _ (by norm_num)]
    have : (235 : ℚ) / 10 = 47 / 2 := by norm_num
    rw [this]
    exact round64_exact_small _ 47 (-1) (by norm_num) (by norm_num) (by norm_num)
      (by norm_num) (by norm_num) (by norm_num)
  rw [e1, e2, e3, e4, e5, e6, e7, e8, e9]

/-- C7, as stated, fails: `getDensityValue 10` is not 23.8. -/
theorem getDensityValue_ten_ne_23_8 : getDensityValue 10 ≠ fin (238 / 10) := by
  rw [getDensityValue_at_10]
  intro h
  have := JSNum.fin.inj h
  norm_num at this

/-- C7, amended: `getDensityValue 10` evaluates to 23.5, the value
`25 + (10 - 5) * (22 - 25) / (15 - 5)` of the interpolation formula. -/
theorem getDensityValue_ten : getDensityValue 10 = fin (235 / 10) := by
  rw [getDensityValue_at_10]
  norm_num

/-- C8: at the positive sizes 0.3 and 75 `getDensityValue` returns `NaN`, not a
positive number. -/
theorem getDensityValue_nan_on_positive_input :
    (0 : ℚ) < 3 / 10 ∧ getDensityValue (3 / 10) = nan
      ∧ (0 : ℚ) < 75 ∧ getDensityValue 75 = nan
      ∧ ∀ r : ℚ, getDensityValue (3 / 10) ≠ fin r ∧ getDensityValue 75 ≠ fin r := by
  have h1 : getDensityValue (3 / 10) = nan := getDensityValue_below _ (by norm_num)
  have h2 : getDensityValue 75 = nan := getDensityValue_above _ (by norm_num)
  refine ⟨by norm_num, h1, by norm_num, h2, fun r => ?_⟩
  rw [h1, h2]
  exact ⟨fun e => JSNum.noConfusion e, fun e => JSNum.noConfusion e⟩

/-- In the normal range the rounded value is within `2 ^ (-53)` of the real one,
relative to it. -/
theorem round64_relative (x : ℚ) (h1 : (2 : ℚ) ^ (-1022 : ℤ) ≤ |x|)
    (h2 : |x| < (2 : ℚ) ^ (1023 : ℤ)) :
    ∃ y, round64 x = fin y ∧ |y - x| ≤ (2 : ℚ) ^ (-53 : ℤ) * |x| := by
  have hpos : 0 < |x| := lt_of_lt_of_le (by positivity) h1
  have a : (-1022 : ℤ) ≤ Int.log 2 |x| :=
    (Int.zpow_le_iff_le_log (R := ℚ) (b := 2) (by norm_num) hpos (x := -1022)).mp
      (by exact_mod_cast h1)
  have b : Int.log 2 |x| < 1023 :=
    (Int.lt_zpow_iff_log_lt (R := ℚ) (b := 2) (by norm_num) hpos (x := 1023)).mp
      (by exact_mod_cast h2)
  have lo : (2 : ℚ) ^ Int.log 2 |x| ≤ |x| := by
    have := Int.zpow_log_le_self (R := ℚ) (b := 2) (by norm_num) hpos
    exact_mod_cast this
  have hi : |x| < (2 : ℚ) ^ (Int.log 2 |x| + 1) := by
    have := Int.lt_zpow_succ_log_self (R := ℚ) (b := 2) (by norm_num) |x|
    exact_mod_cast this
  obtain ⟨y, hy, herr⟩ := round64_near x (Int.log 2 |x| + 1) (by omega) (by omega) hi
  refine ⟨y, hy, le_trans herr ?_⟩
  have e : (2 : ℚ) ^ (Int.log 2 |x| + 1 - 54)
      = (2 : ℚ) ^ (-53 : ℤ) * (2 : ℚ) ^ Int.log 2 |x| := by
    rw [← zpow_add₀ (by norm_num : (2 : ℚ) ≠ 0)]
    congr 1
    ring
  rw [e]
  exact mul_le_mul_of_nonneg_left lo (by positivity)

/-- The product of the doubles `2 ^ 1023` and 2 is out of range: `Infinity`. -/
theorem calculateTotalFloorArea_overflow :
    calculateTotalFloorArea (fin ((2 : ℚ) ^ (1023 : ℤ))) (fin 2) = posInf := by
  have hx : (2 : ℚ) ^ (1023 : ℤ) * 2 = (2 : ℚ) ^ (1024 : ℤ) := by
    rw [show (1024 : ℤ) = 1023 + 1 by norm_num, zpow_add_one₀ (by norm_num)]
  have hpos : (0 : ℚ) < (2 : ℚ) ^ (1024 : ℤ) := by positivity
  have hb : binade ((2 : ℚ) ^ (1024 : ℤ)) = 1024 := by
    refine binade_eq _ 1024 (by norm_num) ?_ ?_
    · rw [abs_of_pos hpos]
    · rw [abs_of_pos hpos]
      exact zpow_lt_zpow_right₀ (by norm_num) (by norm_num)
  have hu : ulp ((2 : ℚ) ^ (1024 : ℤ)) = (2 : ℚ) ^ (972 : ℤ) := by
    unfold ulp
    rw [hb]
    norm_num
  have hq : (2 : ℚ) ^ (1024 : ℤ) / (2 : ℚ) ^ (972 : ℤ) = (((2 : ℤ) ^ (52 : ℕ) : ℤ) : ℚ) := by
    rw [← zpow_sub₀ (by norm_num : (2 : ℚ) ≠ 0)]
    norm_num
  have hy : ((roundHalfEven ((2 : ℚ) ^ (1024 : ℤ) / ulp ((2 : ℚ) ^ (1024 : ℤ))) : ℤ) : ℚ)
      * ulp ((2 : ℚ) ^ (1024 : ℤ)) = (2 : ℚ) ^ (1024 : ℤ) := by
    rw [hu, hq, roundHalfEven_intCast, ← hq]
    exact div_mul_cancel₀ _ (by positivity)
  have h1024 : (2 : ℚ) ^ (1024 : ℕ) = (2 : ℚ) ^ (1024 : ℤ) := by
    rw [← zpow_natCast]
    norm_num
  unfold calculateTotalFloorArea
  rw [JSNum.mul_fin, hx]
  unfold round64
  rw [hy, abs_of_pos hpos, h1024, if_pos (le_refl _)]
  unfold signedInf
  rw [if_pos hpos]

/-- C10, as stated, fails at the doubles 0.1 and 0.2: their exact product is not
a double, and `calculateTotalFloorArea` returns the double next to it,
0.020000000000000004; and at the doubles `2 ^ 1023` and 2 the result is
`Infinity`, not the product `2 ^ 1024`. -/
theorem calculateTotalFloorArea_not_exact_product :
    calculateTotalFloorArea (fin (3602879701896397 / 36028797018963968))
        (fin (3602879701896397 / 18014398509481984))
      = fin (1441151880758559 / 72057594037927936)
    ∧ calculateTotalFloorArea (fin (3602879701896397 / 36028797018963968))
        (fin (3602879701896397 / 18014398509481984))
      ≠ fin ((3602879701896397 / 36028797018963968) * (3602879701896397 / 18014398509481984))
    ∧ calculateTotalFloorArea (fin ((2 : ℚ) ^ (1023 : ℤ))) (fin 2) = posInf
    ∧ calculateTotalFloorArea (fin ((2 : ℚ) ^ (1023 : ℤ))) (fin 2)
      ≠ fin ((2 : ℚ) ^ (1023 : ℤ) * 2) := by
  have hv : calculateTotalFloorArea (fin (3602879701896397 / 36028797018963968))
        (fin (3602879701896397 / 18014398509481984))
      = fin (1441151880758559 / 72057594037927936) := by
    unfold calculateTotalFloorArea
    rw [JSNum.mul_fin]
    have : (3602879701896397 / 36028797018963968 : ℚ) * (3602879701896397 / 18014398509481984)
        = 12980742146337070512478121581609 / 649037107316853453566312041152512 := by norm_num
    rw [this, round64_eq_of_pos _ (-6) 5764607523034236 (by norm_num) (by norm_num)
      (by norm_num) (by norm_num) (by norm_num) (by norm_num) (by norm_num)]
    norm_num
  refine ⟨hv, ?_, calculateTotalFloorArea_overflow, ?_⟩
  · rw [hv]
    intro h
    have := JSNum.fin.inj h
    norm_num at this
  · rw [calculateTotalFloorArea_overflow]
    exact fun e => JSNum.noConfusion e

/-- C10, amended: `calculateTotalFloorArea d a` is the binary64 product of `d`
and `a`, the real product rounded to the nearest double: it is `d * a` itself
whenever `d * a` is a double, in particular 0 when `d` or `a` is 0, and in the
normal range it is within `2 ^ (-53) * |d * a|` of `d * a`. -/
theorem calculateTotalFloorArea_binary64 (d a : ℚ) :
    calculateTotalFloorArea (fin d) (fin a) = round64 (d * a)
      ∧ (IsBinary64 (d * a) → calculateTotalFloorArea (fin d) (fin a) = fin (d * a))
      ∧ calculateTotalFloorArea (fin 0) (fin a) = fin 0
      ∧ calculateTotalFloorArea (fin d) (fin 0) = fin 0
      ∧ ((2 : ℚ) ^ (-1022 : ℤ) ≤ |d * a| → |d * a| < (2 : ℚ) ^ (1023 : ℤ) →
          ∃ r, calculateTotalFloorArea (fin d) (fin a) = fin r
            ∧ |r - d * a| ≤ (2 : ℚ) ^ (-53 : ℤ) * |d * a|) := by
  refine ⟨rfl, ?_, ?_, ?_, ?_⟩
  · rintro ⟨m, k, hm, hk, hx, hr⟩
    exact round64_exact (d * a) m k hx hm hk hr
  · show round64 (0 * a) = fin 0
    rw [zero_mul, round64_zero]
  · show round64 (d * 0) = fin 0
    rw [mul_zero, round64_zero]
  · intro h1 h2
    exact round64_relative (d * a) h1 h2

/-- Witness of C10: the doubles 3 and 0.5, whose product 1.5 is a double. -/
theorem calculateTotalFloorArea_binary64_witness :
    IsBinary64 ((3 : ℚ) * (1 / 2))
      ∧ calculateTotalFloorArea (fin 3) (fin (1 / 2)) = fin (3 * (1 / 2))
      ∧ ∃ r, calculateTotalFloorArea (fin 3) (fin (1 / 2)) = fin r
          ∧ |r - 3 * (1 / 2)| ≤ (2 : ℚ) ^ (-53 : ℤ) * |(3 : ℚ) * (1 / 2)| := by
  have hb : IsBinary64 ((3 : ℚ) * (1 / 2)) :=
    ⟨3, -1, by norm_num, by norm_num, by norm_num, by
      rw [abs_of_pos (by norm_num)]
      exact lt_trans (by norm_num) two_pow_53_lt⟩
  have hpos : |(3 : ℚ) * (1 / 2)| = 3 / 2 := by
    rw [abs_of_pos (by norm_num)]
    norm_num
  refine ⟨hb, (calculateTotalFloorArea_binary64 3 (1 / 2)).2.1 hb,
    (calculateTotalFloorArea_binary64 3 (1 / 2)).2.2.2.2 ?_ ?_⟩
  · rw [hpos]
    have : (2 : ℚ) ^ (-1022 : ℤ) ≤ (2 : ℚ) ^ (0 : ℤ) :=
      zpow_le_zpow_right₀ (by norm_num) (by norm_num)
    rw [zpow_zero] at this
    linarith
  · rw [hpos]
    have : (2 : ℚ) ^ (1 : ℤ) ≤ (2 : ℚ) ^ (1023 : ℤ) :=
      zpow_le_zpow_right₀ (by norm_num) (by norm_num)
    rw [zpow_one] at this
    linarith

end DensityCalculator
namespace DensityCalculator

open JSNum

/-! ## Only the maximum density of each size is used -/

theorem maxDensityAt_posInf (cells : List (ℚ × ℚ)) : maxDensityAt cells posInf = negInf := by
  simp [maxDensityAt, strictEq, mathMax]

theorem maxDensityAt_negInf (cells : List (ℚ × ℚ)) : maxDensityAt cells negInf = negInf := by
  simp [maxDensityAt, strictEq, mathMax]

theorem maxDensityAt_nan (cells : List (ℚ × ℚ)) : maxDensityAt cells nan = negInf := by
  simp [maxDensityAt, strictEq, mathMax]

/-- Two tables with the same sorted sizes and the same greatest density at every
size give the same result at every input. -/
theorem getDensityValueOn_congr (c c' : List (ℚ × ℚ))
    (hU : uniqueTerritorySizes c = uniqueTerritorySizes c')
    (hM : ∀ q, maxDensityAt c (fin q) = maxDensityAt c' (fin q)) (s : ℚ) :
    getDensityValueOn c s = getDensityValueOn c' s := by
  have hM' : ∀ x, maxDensityAt c x = maxDensityAt c' x := by
    intro x
    cases x with
    | fin q => exact hM q
    | posInf => rw [maxDensityAt_posInf, maxDensityAt_posInf]
    | negInf => rw [maxDensityAt_negInf, maxDensityAt_negInf]
    | nan => rw [maxDensityAt_nan, maxDensityAt_nan]
  have hl : lowerSize c s = lowerSize c' s := by
    simp only [lowerSize, lowerSizes, hU]
  have hu : upperSize c s = upperSize c' s := by
    simp only [upperSize, upperSizes, hU]
  have he : ∀ t : List (ℚ × ℚ),
      mathMax ((t.filter (fun cell => decide (cell.1 = s))).map Prod.snd)
        = maxDensityAt t (fin s) := fun _ => rfl
  simp only [getDensityValueOn, interpolationDivisor, he, hU, hl, hu, hM']

/-- The greatest density of `greenCells` at each size. -/
theorem maxDensityAt_greenCells (q : ℚ) :
    maxDensityAt greenCells (fin q)
      = if q = 1 then fin 35 else if q = 5 then fin 25 else if q = 15 then fin 22
        else if q = 30 then fin 20 else if q = 60 then fin 20 else negInf := by
  by_cases h1 : q = 1
  · subst h1; decide
  by_cases h5 : q = 5
  · subst h5; decide
  by_cases h15 : q = 15
  · subst h15; decide
  by_cases h30 : q = 30
  · subst h30; decide
  by_cases h60 : q = 60
  · subst h60; decide
  simp [maxDensityAt, greenCells, strictEq, List.filter, mathMax, h1, h5, h15, h30, h60,
    Ne.symm h1, Ne.symm h5, Ne.symm h15, Ne.symm h30, Ne.symm h60]

/-- The greatest density of `reducedCells` at each size. -/
theorem maxDensityAt_reducedCells (q : ℚ) :
    maxDensityAt reducedCells (fin q)
      = if q = 1 then fin 35 else if q = 5 then fin 25 else if q = 15 then fin 22
        else if q = 30 then fin 20 else if q = 60 then fin 20 else negInf := by
  by_cases h1 : q = 1
  · subst h1; decide
  by_cases h5 : q = 5
  · subst h5; decide
  by_cases h15 : q = 15
  · subst h15; decide
  by_cases h30 : q = 30
  · subst h30; decide
  by_cases h60 : q = 60
  · subst h60; decide
  simp [maxDensityAt, reducedCells, strictEq, List.filter, mathMax, h1, h5, h15, h30, h60,
    Ne.symm h1, Ne.symm h5, Ne.symm h15, Ne.symm h30, Ne.symm h60]

theorem getDensityValue_eq_reduced (s : ℚ) :
    getDensityValue s = getDensityValueOn reducedCells s :=
  getDensityValueOn_congr greenCells reducedCells (by decide)
    (fun q => by rw [maxDensityAt_greenCells, maxDensityAt_reducedCells]) s

end DensityCalculator
namespace DensityCalculator

open JSNum

/-- A table with the sizes of `greenCells` and the same greatest density at
every size gives the results of `getDensityValue`. -/
theorem getDensityValueOn_eq_of_same_maxima (cells : List (ℚ × ℚ))
    (hU : uniqueTerritorySizes cells = uniqueTerritorySizes greenCells)
    (hM : ∀ q, maxDensityAt cells (fin q) = maxDensityAt greenCells (fin q)) (s : ℚ) :
    getDensityValueOn cells s = getDensityValue s :=
  getDensityValueOn_congr cells greenCells hU hM s

/-- Replacing the density of a non-maximal row of `greenCells` by a value that
does not exceed the maximum density of the row's size changes no result. -/
theorem getDensityValueOn_set_nonmaximal (i : Fin greenCells.length) (d s : ℚ)
    (hnon : ¬ IsMaxDensity (greenCells.get i).1 (greenCells.get i).2)
    (hle : ∀ m, IsMaxDensity (greenCells.get i).1 m → d ≤ m) :
    getDensityValueOn (greenCells.set i ((greenCells.get i).1, d)) s = getDensityValue s := by
  have key : ∀ (cells : List (ℚ × ℚ)),
      uniqueTerritorySizes cells = uniqueTerritorySizes greenCells →
      (maxDensityAt cells (fin 1) = fin 35) → (maxDensityAt cells (fin 5) = fin 25) →
      (maxDensityAt cells (fin 15) = fin 22) → (maxDensityAt cells (fin 30) = fin 20) →
      (maxDensityAt cells (fin 60) = fin 20) →
      (∀ q : ℚ, q ≠ 1 → q ≠ 5 → q ≠ 15 → q ≠ 30 → q ≠ 60 →
        maxDensityAt cells (fin q) = negInf) →
      getDensityValueOn cells s = getDensityValue s := by
    intro cells hU e1 e5 e15 e30 e60 eo
    refine getDensityValueOn_eq_of_same_maxima cells hU (fun q => ?_) s
    rw [maxDensityAt_greenCells]
    by_cases h1 : q = 1
    · rw [if_pos h1, h1, e1]
    by_cases h5 : q = 5
    · rw [if_neg h1, if_pos h5, h5, e5]
    by_cases h15 : q = 15
    · rw [if_neg h1, if_neg h5, if_pos h15, h15, e15]
    by_cases h30 : q = 30
    · rw [if_neg h1, if_neg h5, if_neg h15, if_pos h30, h30, e30]
    by_cases h60 : q = 60
    · rw [if_neg h1, if_neg h5, if_neg h15, if_neg h30, if_pos h60, h60, e60]
    rw [if_neg h1, if_neg h5, if_neg h15, if_neg h30, if_neg h60]
    exact eo q h1 h5 h15 h30 h60
  have m1 : IsMaxDensity 1 35 := by decide
  have m5 : IsMaxDensity 5 25 := by decide
  have m15 : IsMaxDensity 15 22 := by decide
  fin_cases i
  · have hd : d ≤ 35 := hle 35 m1
    show getDensityValueOn
      [(1, d), (1, 22), (1, 25), (1, 30), (1, 35), (5, 20), (5, 22), (5, 25), (15, 20), (15, 22), (30, 20), (60, 20)] s = _
    refine key _ rfl ?_ ?_ ?_ ?_ ?_ ?_
    · norm_num [maxDensityAt, strictEq, List.filter, mathMax, hd]
    · norm_num [maxDensityAt, strictEq, List.filter, mathMax, hd]
    · norm_num [maxDensityAt, strictEq, List.filter, mathMax, hd]
    · norm_num [maxDensityAt, strictEq, List.filter, mathMax]
    · norm_num [maxDensityAt, strictEq, List.filter, mathMax]
    · intro q h1 h5 h15 h30 h60
      simp [maxDensityAt, strictEq, List.filter, mathMax,
        Ne.symm h1, Ne.symm h5, Ne.symm h15, Ne.symm h30, Ne.symm h60]
  · have hd : d ≤ 35 := hle 35 m1
    show getDensityValueOn
      [(1, 20), (1, d), (1, 25), (1, 30), (1, 35), (5, 20), (5, 22), (5, 25), (15, 20), (15, 22), (30, 20), (60, 20)] s = _
    refine key _ rfl ?_ ?_ ?_ ?_ ?_ ?_
    · norm_num [maxDensityAt, strictEq, List.filter, mathMax, hd]
    · norm_num [maxDensityAt, strictEq, List.filter, mathMax, hd]
    · norm_num [maxDensityAt, strictEq, List.filter, mathMax, hd]
    · norm_num [maxDensityAt, strictEq, List.filter, mathMax]
    · norm_num [maxDensityAt, strictEq, List.filter, mathMax]
    · intro q h1 h5 h15 h30 h60
      simp [maxDensityAt, strictEq, List.filter, mathMax,
        Ne.symm h1, Ne.symm h5, Ne.symm h15, Ne.symm h30, Ne.symm h60]
  · have hd : d ≤ 35 := hle 35 m1
    show getDensityValueOn
      [(1, 20), (1, 22), (1, d), (1, 30), (1, 35), (5, 20), (5, 22), (5, 25), (15, 20), (15, 22), (30, 20), (60, 20)] s = _
    refine key _ rfl ?_ ?_ ?_ ?_ ?_ ?_
    · norm_num [maxDensityAt, strictEq, List.filter, mathMax, hd]
    · norm_num [maxDensityAt, strictEq, List.filter, mathMax, hd]
    · norm_num [maxDensityAt, strictEq, List.filter, mathMax, hd]
    · norm_num [maxDensityAt, strictEq, List.filter, mathMax]
    · norm_num [maxDensityAt, strictEq, List.filter, mathMax]
    · intro q h1 h5 h15 h30 h60
      simp [maxDensityAt, strictEq, List.filter, mathMax,
        Ne.symm h1, Ne.symm h5, Ne.symm h15, Ne.symm h30, Ne.symm h60]
  · have hd : d ≤ 35 := hle 35 m1
    show getDensityValueOn
      [(1, 20), (1, 22), (1, 25), (1, d), (1, 35), (5, 20), (5, 22), (5, 25), (15, 20), (15, 22), (30, 20), (60, 20)] s = _
    refine key _ rfl ?_ ?_ ?_ ?_ ?_ ?_
    · norm_num [maxDensityAt, strictEq, List.filter, mathMax, hd]
    · norm_num [maxDensityAt, strictEq, List.filter, mathMax, hd]
    · norm_num [maxDensityAt, strictEq, List.filter, mathMax, hd]
    · norm_num [maxDensityAt, strictEq, List.filter, mathMax]
    · norm_num [maxDensityAt, strictEq, List.filter, mathMax]
    · intro q h1 h5 h15 h30 h60
      simp [maxDensityAt, strictEq, List.filter, mathMax,
        Ne.symm h1, Ne.symm h5, Ne.symm h15, Ne.symm h30, Ne.symm h60]
  · exact (hnon (by decide)).elim
  · have hd : d ≤ 25 := hle 25 m5
    show getDensityValueOn
      [(1, 20), (1, 22), (1, 25), (1, 30), (1, 35), (5, d), (5, 22), (5, 25), (15, 20), (15, 22), (30, 20), (60, 20)] s = _
    refine key _ rfl ?_ ?_ ?_ ?_ ?_ ?_
    · norm_num [maxDensityAt, strictEq, List.filter, mathMax, hd]
    · norm_num [maxDensityAt, strictEq, List.filter, mathMax, hd]
    · norm_num [maxDensityAt, strictEq, List.filter, mathMax, hd]
    · norm_num [maxDensityAt, strictEq, List.filter, mathMax]
    · norm_num [maxDensityAt, strictEq, List.filter, mathMax]
    · intro q h1 h5 h15 h30 h60
      simp [maxDensityAt, strictEq, List.filter, mathMax,
        Ne.symm h1, Ne.symm h5, Ne.symm h15, Ne.symm h30, Ne.symm h60]
  · have hd : d ≤ 25 := hle 25 m5
    show getDensityValueOn
      [(1, 20), (1, 22), (1, 25), (1, 30), (1, 35), (5, 20), (5, d), (5, 25), (15, 20), (15, 22), (30, 20), (60, 20)] s = _
    refine key _ rfl ?_ ?_ ?_ ?_ ?_ ?_
    · norm_num [maxDensityAt, strictEq, List.filter, mathMax, hd]
    · norm_num [maxDensityAt, strictEq, List.filter, mathMax, hd]
    · norm_num [maxDensityAt, strictEq, List.filter, mathMax, hd]
    · norm_num [maxDensityAt, strictEq, List.filter, mathMax]
    · norm_num [maxDensityAt, strictEq, List.filter, mathMax]
    · intro q h1 h5 h15 h30 h60
      simp [maxDensityAt, strictEq, List.filter, mathMax,
        Ne.symm h1, Ne.symm h5, Ne.symm h15, Ne.symm h30, Ne.symm h60]
  · exact (hnon (by decide)).elim
  · have hd : d ≤ 22 := hle 22 m15
    show getDensityValueOn
      [(1, 20), (1, 22), (1, 25), (1, 30), (1, 35), (5, 20), (5, 22), (5, 25), (15, d), (15, 22), (30, 20), (60, 20)] s = _
    refine key _ rfl ?_ ?_ ?_ ?_ ?_ ?_
    · norm_num [maxDensityAt, strictEq, List.filter, mathMax, hd]
    · norm_num [maxDensityAt, strictEq, List.filter, mathMax, hd]
    · norm_num [maxDensityAt, strictEq, List.filter, mathMax, hd]
    · norm_num [maxDensityAt, strictEq, List.filter, mathMax]
    · norm_num [maxDensityAt, strictEq, List.filter, mathMax]
    · intro q h1 h5 h15 h30 h60
      simp [maxDensityAt, strictEq, List.filter, mathMax,
        Ne.symm h1, Ne.symm h5, Ne.symm h15, Ne.symm h30, Ne.symm h60]
  · exact (hnon (by decide)).elim
  · exact (hnon (by decide)).elim
  · exact (hnon (by decide)).elim


/-- The bounds over a table with the two sizes `a < b`, strictly between them. -/
theorem bounds_two (cells : List (ℚ × ℚ)) (a b s : ℚ)
    (hU : uniqueTerritorySizes cells = [a, b]) (h1 : a < s) (h2 : s < b) :
    s ∉ uniqueTerritorySizes cells ∧ lowerSize cells s = fin a ∧ upperSize cells s = fin b := by
  have a1 : ¬ b < s := by linarith
  have a2 : ¬ s < a := by linarith
  refine ⟨?_, ?_, ?_⟩
  · rw [hU]
    simp [ne_of_gt h1, ne_of_lt h2]
  · simp [lowerSize, lowerSizes, hU, List.filter, h1, a1, mathMax]
  · simp [upperSize, upperSizes, hU, List.filter, h2, a2, mathMin]

/-- The bounds over a table with the one size `a`, away from it. -/
theorem bounds_one (cells : List (ℚ × ℚ)) (a s : ℚ)
    (hU : uniqueTerritorySizes cells = [a]) (h : s ≠ a) :
    s ∉ uniqueTerritorySizes cells ∧ lowerSize cells s = fin a ∧ upperSize cells s = fin a := by
  refine ⟨?_, ?_, ?_⟩
  · rw [hU]
    simp [h]
  · by_cases c : a < s
    · simp [lowerSize, lowerSizes, hU, List.filter, c, mathMax]
    · simp [lowerSize, lowerSizes, hU, List.filter, c, mathMin]
  · by_cases c : s < a
    · simp [upperSize, upperSizes, hU, List.filter, c, mathMin]
    · simp [upperSize, upperSizes, hU, List.filter, c, mathMax]

/-- At every input the result is the result of the same algorithm over a table
of two rows of `greenCells`, each the maximal row of its size. -/
theorem getDensityValue_two_rows (s : ℚ) :
    ∃ r1 r2 : ℚ × ℚ, r1 ∈ greenCells ∧ r2 ∈ greenCells
      ∧ IsMaxDensity r1.1 r1.2 ∧ IsMaxDensity r2.1 r2.2
      ∧ getDensityValue s = getDensityValueOn [r1, r2] s := by
  rcases lt_trichotomy s 1 with c | c | c
  · refine ⟨(1, 35), (1, 35), by decide, by decide, by decide, by decide, ?_⟩
    obtain ⟨hn, hl, hu⟩ := bounds_one [((1 : ℚ), (35 : ℚ)), (1, 35)] 1 s (by decide) (ne_of_lt c)
    rw [getDensityValue_below s c,
      getDensityValueOn_of_equal_bounds _ s 1 35 hn hl hu (by decide)]
  · subst c
    exact ⟨(1, 35), (1, 35), by decide, by decide, by decide, by decide, by decide⟩
  rcases lt_trichotomy s 5 with c5 | c5 | c5
  · refine ⟨(1, 35), (5, 25), by decide, by decide, by decide, by decide, ?_⟩
    obtain ⟨hn, hl, hu⟩ := bounds_two [((1 : ℚ), (35 : ℚ)), (5, 25)] 1 5 s (by decide) c c5
    rw [getDensityValue_1_5 s c c5,
      getDensityValueOn_of_bounds _ s 1 5 35 25 hn hl hu (by decide) (by decide)]
  · subst c5
    exact ⟨(5, 25), (5, 25), by decide, by decide, by decide, by decide, by decide⟩
  rcases lt_trichotomy s 15 with c15 | c15 | c15
  · refine ⟨(5, 25), (15, 22), by decide, by decide, by decide, by decide, ?_⟩
    obtain ⟨hn, hl, hu⟩ := bounds_two [((5 : ℚ), (25 : ℚ)), (15, 22)] 5 15 s (by decide) c5 c15
    rw [getDensityValue_5_15 s c5 c15,
      getDensityValueOn_of_bounds _ s 5 15 25 22 hn hl hu (by decide) (by decide)]
  · subst c15
    exact ⟨(15, 22), (15, 22), by decide, by decide, by decide, by decide, by decide⟩
  rcases lt_trichotomy s 30 with c30 | c30 | c30
  · refine ⟨(15, 22), (30, 20), by decide, by decide, by decide, by decide, ?_⟩
    obtain ⟨hn, hl, hu⟩ := bounds_two [((15 : ℚ), (22 : ℚ)), (30, 20)] 15 30 s (by decide) c15 c30
    rw [getDensityValue_15_30 s c15 c30,
      getDensityValueOn_of_bounds _ s 15 30 22 20 hn hl hu (by decide) (by decide)]
  · subst c30
    exact ⟨(30, 20), (30, 20), by decide, by decide, by decide, by decide, by decide⟩
  rcases lt_trichotomy s 60 with c60 | c60 | c60
  · refine ⟨(30, 20), (60, 20), by decide, by decide, by decide, by decide, ?_⟩
    obtain ⟨hn, hl, hu⟩ := bounds_two [((30 : ℚ), (20 : ℚ)), (60, 20)] 30 60 s (by decide) c30 c60
    rw [getDensityValue_30_60 s c30 c60,
      getDensityValueOn_of_bounds _ s 30 60 20 20 hn hl hu (by decide) (by decide)]
  · subst c60
    exact ⟨(60, 20), (60, 20), by decide, by decide, by decide, by decide, by decide⟩
  · refine ⟨(60, 20), (60, 20), by decide, by decide, by decide, by decide, ?_⟩
    obtain ⟨hn, hl, hu⟩ := bounds_one [((60 : ℚ), (20 : ℚ)), (60, 20)] 60 s (by decide) (ne_of_gt c60)
    rw [getDensityValue_above s c60,
      getDensityValueOn_of_equal_bounds _ s 60 20 hn hl hu (by decide)]

/-- C9, as stated, fails: the row (1, 20) of `greenCells` is not maximal, and
changing its density to 40 changes the result at the size 1 from 35 to 40. -/
theorem getDensityValue_changed_by_raised_row :
    greenCells.get ⟨0, by decide⟩ = (1, 20) ∧ ¬ IsMaxDensity 1 20
      ∧ getDensityValueOn (greenCells.set 0 (1, 40)) 1 = fin 40
      ∧ getDensityValue 1 = fin 35
      ∧ getDensityValueOn (greenCells.set 0 (1, 40)) 1 ≠ getDensityValue 1 := by
  refine ⟨by decide, by decide, by decide, by decide, by decide⟩

/-- C9, amended: `getDensityValue` uses only the maximum density of each
territory size: at every input the result over the 12-row table `greenCells` is
the result of the same algorithm over the reduced 5-row table; it is the result
of the same algorithm over two rows of the table, each the maximal row of its
size; and it is unchanged when the density of a non-maximal row is replaced by
any value that does not exceed the maximum density of that row's size. -/
theorem getDensityValue_uses_only_maxima :
    (∀ s : ℚ, getDensityValue s = getDensityValueOn reducedCells s) ∧
    (∀ s : ℚ, ∃ r1 r2 : ℚ × ℚ, r1 ∈ greenCells ∧ r2 ∈ greenCells
      ∧ IsMaxDensity r1.1 r1.2 ∧ IsMaxDensity r2.1 r2.2
      ∧ getDensityValue s = getDensityValueOn [r1, r2] s) ∧
    (∀ (i : Fin greenCells.length) (d s : ℚ),
      ¬ IsMaxDensity (greenCells.get i).1 (greenCells.get i).2 →
      (∀ m, IsMaxDensity (greenCells.get i).1 m → d ≤ m) →
      getDensityValueOn (greenCells.set i ((greenCells.get i).1, d)) s = getDensityValue s) :=
  ⟨getDensityValue_eq_reduced, getDensityValue_two_rows,
    fun i d s hnon hle => getDensityValueOn_set_nonmaximal i d s hnon hle⟩

/-- Witness of C9: the row (1, 20) of `greenCells` is not maximal, and replacing
its density by 10 leaves the result at the size 3 unchanged. -/
theorem getDensityValue_uses_only_maxima_witness :
    getDensityValueOn (greenCells.set 0 (1, 10)) 3 = getDensityValue 3 :=
  getDensityValue_uses_only_maxima.2.2 ⟨0, by decide⟩ 10 3 (by decide)
    (fun m hm => by
      have e : m = 35 := isMaxDensity_unique 1 m 35 hm (by decide)
      rw [e]
      norm_num)

end DensityCalculator
namespace PolygonCreator

open DensityCalculator

/-! ## The handlers of `polygonState` -/

/-- C12: from every `polygonState`, `resetAll` restores the initial state:
both modes and `isDragging` false, no points, no current polygon, and
`dragPointIndex` at -1. -/
theorem resetAll_restores_initial (st : PolygonState) :
    resetAll st = initialPolygonState
      ∧ (resetAll st).drawingMode = false ∧ (resetAll st).editMode = false
      ∧ (resetAll st).isDragging = false ∧ (resetAll st).points = []
      ∧ (resetAll st).currentPolygon = none ∧ (resetAll st).dragPointIndex = -1 :=
  ⟨rfl, rfl, rfl, rfl, rfl, rfl, rfl⟩

/-- C13: with fewer than 3 points `togglePolygonEditMode` returns at once: it
does not turn edit mode on and it leaves every field of `polygonState`, the
drawing mode included, as it was. -/
theorem togglePolygonEditMode_without_polygon (st : PolygonState)
    (h : st.points.length < 3) :
    togglePolygonEditMode st = .ok st
      ∧ (stateAfter (togglePolygonEditMode st)).editMode = st.editMode
      ∧ (stateAfter (togglePolygonEditMode st)).drawingMode = st.drawingMode := by
  have e : togglePolygonEditMode st = .ok st := by
    simp [togglePolygonEditMode, h]
  rw [e]
  exact ⟨rfl, rfl, rfl⟩

/-- Witness of C13: in drawing mode with two points the state is unchanged. -/
theorem togglePolygonEditMode_without_polygon_witness :
    togglePolygonEditMode
        { initialPolygonState with drawingMode := true, points := [some (0, 0), some (1, 0)] }
      = .ok { initialPolygonState with drawingMode := true, points := [some (0, 0), some (1, 0)] }
      ∧ (stateAfter (togglePolygonEditMode
          { initialPolygonState with
            drawingMode := true, points := [some (0, 0), some (1, 0)] })).editMode = false
      ∧ (stateAfter (togglePolygonEditMode
          { initialPolygonState with
            drawingMode := true, points := [some (0, 0), some (1, 0)] })).drawingMode = true :=
  togglePolygonEditMode_without_polygon
    { initialPolygonState with drawingMode := true, points := [some (0, 0), some (1, 0)] }
    (by decide)

/-- The function `updateBuildingsVisibility` leaves the state as it was, whether
it returns or throws. -/
theorem stateAfter_updateBuildingsVisibility (st : PolygonState) :
    stateAfter (updateBuildingsVisibility st) = st := by
  unfold updateBuildingsVisibility
  split
  · rfl
  · split <;> rfl

/-- C14: `finishPolygon` with fewer than 3 points leaves `polygonState`
unchanged; with at least 3 points it sets `drawingMode` to false and leaves
`points`, `editMode`, `isDragging` and `dragPointIndex` unchanged. -/
theorem finishPolygon_effect (st : PolygonState) :
    (st.points.length < 3 → finishPolygon st = .ok st) ∧
    (3 ≤ st.points.length →
      (stateAfter (finishPolygon st)).drawingMode = false
        ∧ (stateAfter (finishPolygon st)).points = st.points
        ∧ (stateAfter (finishPolygon st)).editMode = st.editMode
        ∧ (stateAfter (finishPolygon st)).isDragging = st.isDragging
        ∧ (stateAfter (finishPolygon st)).dragPointIndex = st.dragPointIndex) := by
  constructor
  · intro h
    simp [finishPolygon, h]
  · intro h
    have hn : ¬ st.points.length < 3 := by omega
    have e : stateAfter (finishPolygon st) = { st with drawingMode := false } := by
      simp only [finishPolygon, if_neg hn, stateAfter_updateBuildingsVisibility]
    rw [e]
    exact ⟨rfl, rfl, rfl, rfl, rfl⟩

/-- Witness of C14: in drawing mode, with two points nothing changes and with
three points the drawing mode is turned off. -/
theorem finishPolygon_effect_witness :
    finishPolygon
        { initialPolygonState with drawingMode := true, points := [some (0, 0), some (1, 0)] }
      = .ok { initialPolygonState with drawingMode := true, points := [some (0, 0), some (1, 0)] }
    ∧ (stateAfter (finishPolygon
        { initialPolygonState with
          drawingMode := true
          points := [some (0, 0), some (1, 0), some (1, 1)] })).drawingMode = false :=
  ⟨(finishPolygon_effect
      { initialPolygonState with
        drawingMode := true, points := [some (0, 0), some (1, 0)] }).1 (by decide),
    ((finishPolygon_effect
      { initialPolygonState with
        drawingMode := true
        points := [some (0, 0), some (1, 0), some (1, 1)] }).2 (by decide)).1⟩

end PolygonCreator
namespace PolygonCreator

/-! ## The ring built by `updatePolygonDisplay` -/

theorem elementAt_map_some (pts : List Point) (i : ℕ) :
    elementAt (pts.map some) i = pts[i]? := by
  simp only [elementAt, List.get?_eq_getElem?, List.getElem?_map]
  cases pts[i]? <;> rfl

theorem arePointsEqual_some (p q : Point) :
    arePointsEqual (some p) (some q) = decide (p = q) := by
  obtain ⟨p1, p2⟩ := p
  obtain ⟨q1, q2⟩ := q
  simp [arePointsEqual, Prod.mk.injEq]

/-- No vertex feature is a polygon feature. -/
theorem vertexFeatures_not_polygon (points : List (Option Point)) (f : Feature)
    (hf : f ∈ vertexFeatures points) (ring : List (Option Point)) : f ≠ Feature.polygon ring := by
  simp only [vertexFeatures, List.mem_filterMap] at hf
  obtain ⟨ip, -, h⟩ := hf
  cases hq : ip.2 with
  | none => simp [hq] at h
  | some c =>
    simp [hq] at h
    rw [← h]
    exact fun e => Feature.noConfusion e

/-- The closed ring of a list of at least one point, all of them present. -/
theorem closeRing_map_some (pts : List Point) (p : Point) (hh : pts.head? = some p) :
    closeRing (pts.map some)
      = some (if pts.head? = pts.getLast? then pts.map some else pts.map some ++ [some p]) := by
  have h0 : pts[0]? = some p := by
    rw [← List.head?_eq_getElem?]
    exact hh
  obtain ⟨q, hq⟩ : ∃ q, pts.getLast? = some q := by
    cases pts with
    | nil => simp at hh
    | cons a l => exact ⟨_, List.getLast?_eq_getLast _ (List.cons_ne_nil a l)⟩
  have hl : pts[pts.length - 1]? = some q := by
    rw [← List.getLast?_eq_getElem?]
    exact hq
  simp only [closeRing, elementAt_map_some, List.length_map, h0, hl, arePointsEqual_some, hh, hq,
    Option.some.injEq]
  by_cases e : p = q
  · simp [e]
  · simp [e]

/-- On a list of `n ≥ 3` points that are all present `updatePolygonDisplay`
builds a polygon feature with a closed ring: the first and the last position
are equal, the first `n` positions are the input points in order, and the ring
has `n` positions when the first and the last input point are equal and `n + 1`
otherwise; the array `points` is unchanged; for `n < 3` no polygon feature is
built. -/
theorem updatePolygonDisplay_closed_ring (st : PolygonState) (pts : List Point)
    (hp : st.points = pts.map some) :
    (3 ≤ pts.length →
      ∃ ring st' vertices,
        updatePolygonDisplay st = .ok (st', Feature.polygon ring :: vertices)
          ∧ st'.currentPolygon = some (Feature.polygon ring)
          ∧ (∀ f ∈ vertices, ∀ r, f ≠ Feature.polygon r)
          ∧ ring.head? = ring.getLast?
          ∧ ring.take pts.length = pts.map some
          ∧ ring.length = (if pts.head? = pts.getLast? then pts.length else pts.length + 1)
          ∧ st'.points = pts.map some) ∧
    (pts.length < 3 →
      ∃ features,
        updatePolygonDisplay st = .ok (st, features)
          ∧ ∀ f ∈ features, ∀ r, f ≠ Feature.polygon r) := by
  have hlen : st.points.length = pts.length := by rw [hp, List.length_map]
  constructor
  · intro hn
    obtain ⟨p, hh⟩ : ∃ p, pts.head? = some p := by
      cases pts with
      | nil => simp at hn
      | cons a l => exact ⟨a, rfl⟩
    have hc := closeRing_map_some pts p hh
    have hge : st.points.length ≥ 3 := by omega
    refine ⟨if pts.head? = pts.getLast? then pts.map some else pts.map some ++ [some p],
      { st with currentPolygon := some (Feature.polygon
        (if pts.head? = pts.getLast? then pts.map some else pts.map some ++ [some p])) },
      vertexFeatures st.points, ?_, rfl, ?_, ?_, ?_, ?_, hp⟩
    · simp only [updatePolygonDisplay, if_pos hge]
      rw [hp, hc]
    · exact fun f hf r => vertexFeatures_not_polygon _ f hf r
    · by_cases e : pts.head? = pts.getLast?
      · rw [if_pos e, List.head?_map, List.getLast?_map, e]
      · rw [if_neg e, List.getLast?_append, List.head?_append]
        simp [hh]
    · by_cases e : pts.head? = pts.getLast?
      · rw [if_pos e]
        simp
      · rw [if_neg e]
        simp
    · by_cases e : pts.head? = pts.getLast?
      · rw [if_pos e, if_pos e, List.length_map]
      · rw [if_neg e, if_neg e]
        simp
  · intro hn
    have hlt : ¬ st.points.length ≥ 3 := by omega
    refine ⟨vertexFeatures st.points, ?_, fun f hf r => vertexFeatures_not_polygon _ f hf r⟩
    simp only [updatePolygonDisplay, if_neg hlt]

end PolygonCreator
namespace PolygonCreator

/-- C15: on the array of length 3 that a stale drag leaves behind, a hole at the
index 0, `updatePolygonDisplay` throws instead of building a closed ring.  The
events are: a triangle is drawn and finished, edit mode is turned on, the
vertex 2 is pressed, `togglePolygonDrawingMode` empties `points` while
`isDragging` stays true, and `onDragMove` assigns at the index 2 of the empty
array.  The array is then `[hole, hole, [9, 9]]`; `arePointsEqual` is false on
the `undefined` first point, the spread of that point is a `TypeError`, no
polygon feature is built and `currentPolygon` stays `null`. -/
theorem updatePolygonDisplay_throws_on_hole :
    (run [Event.togglePolygonDrawingMode, Event.mapClick (0, 0), Event.mapClick (1, 0),
        Event.mapClick (1, 1), Event.finishPolygon, Event.togglePolygonEditMode,
        Event.vertexMouseDown 2, Event.togglePolygonDrawingMode, Event.dragMove (9, 9)]).points
      = [none, none, some (9, 9)]
    ∧ ([none, none, some ((9 : ℚ), (9 : ℚ))] : List (Option Point)).length = 3
    ∧ closeRing [none, none, some (9, 9)] = none
    ∧ (∀ st : PolygonState, st.points = [none, none, some (9, 9)] →
        updatePolygonDisplay st = .error st)
    ∧ (run [Event.togglePolygonDrawingMode, Event.mapClick (0, 0), Event.mapClick (1, 0),
        Event.mapClick (1, 1), Event.finishPolygon, Event.togglePolygonEditMode,
        Event.vertexMouseDown 2, Event.togglePolygonDrawingMode,
        Event.dragMove (9, 9)]).currentPolygon = none := by
  refine ⟨by decide, by decide, by decide, ?_, by decide⟩
  intro st hst
  have hc : closeRing [none, none, some (9, 9)] = none := by decide
  unfold updatePolygonDisplay
  rw [hst, if_pos (by decide), hc]

/-! ## The two modes exclude each other -/

/-- The function `updatePolygonDisplay` changes `currentPolygon` at most. -/
theorem stateAfter_updatePolygonDisplay (st : PolygonState) :
    (stateAfter ((updatePolygonDisplay st).map Prod.fst)).drawingMode = st.drawingMode
      ∧ (stateAfter ((updatePolygonDisplay st).map Prod.fst)).editMode = st.editMode
      ∧ (stateAfter ((updatePolygonDisplay st).map Prod.fst)).points = st.points := by
  unfold updatePolygonDisplay
  split
  · split <;> exact ⟨rfl, rfl, rfl⟩
  · exact ⟨rfl, rfl, rfl⟩

/-- After `togglePolygonDrawingMode` the edit mode is off, and the drawing mode
is the opposite of what it was. -/
theorem togglePolygonDrawingMode_modes (st : PolygonState) :
    (stateAfter (togglePolygonDrawingMode st)).editMode = false
      ∧ (stateAfter (togglePolygonDrawingMode st)).drawingMode = !st.drawingMode := by
  unfold togglePolygonDrawingMode
  simp only [(stateAfter_updatePolygonDisplay _).1, (stateAfter_updatePolygonDisplay _).2.1]
  cases hd : st.drawingMode <;> cases he : st.editMode <;> simp [hd, he]

/-- After `togglePolygonEditMode` on at least 3 points the drawing mode is off. -/
theorem togglePolygonEditMode_drawingMode (st : PolygonState) (h : ¬ st.points.length < 3) :
    (stateAfter (togglePolygonEditMode st)).drawingMode = false := by
  unfold togglePolygonEditMode
  rw [if_neg h]
  cases hd : st.drawingMode
  · simp only [Bool.false_eq_true, if_false]
    split
    · exact hd
    · rw [stateAfter_updateBuildingsVisibility]
      exact hd
  · simp only [if_true]
    have hm := (togglePolygonDrawingMode_modes st).2
    rw [hd] at hm
    cases ht : togglePolygonDrawingMode st with
    | error st1 =>
      rw [ht] at hm
      exact hm
    | ok st1 =>
      rw [ht] at hm
      simp only
      split
      · exact hm
      · rw [stateAfter_updateBuildingsVisibility]
        exact hm

/-- Every event keeps the two modes exclusive. -/
theorem step_modesExclusive (st : PolygonState) (e : Event) (h : ModesExclusive st) :
    ModesExclusive (step st e) := by
  unfold ModesExclusive at *
  cases e with
  | togglePolygonDrawingMode =>
    simp only [step, (togglePolygonDrawingMode_modes st).1]
    simp
  | togglePolygonEditMode =>
    by_cases hl : st.points.length < 3
    · simp only [step, togglePolygonEditMode, if_pos hl, stateAfter]
      exact h
    · simp only [step, togglePolygonEditMode_drawingMode st hl]
      simp
  | finishPolygon =>
    by_cases hl : st.points.length < 3
    · simp only [step, finishPolygon, if_pos hl, stateAfter]
      exact h
    · simp only [step, finishPolygon, if_neg hl, stateAfter_updateBuildingsVisibility]
      simp
  | finishEditMode =>
    simp only [step, finishEditMode, stateAfter_updateBuildingsVisibility]
    simp
  | resetAll =>
    simp [step, resetAll]
  | mapClick coords =>
    by_cases hd : st.drawingMode = true
    · simp only [step, onMapClick]
      rw [if_neg (by simp [hd])]
      simp only [(stateAfter_updatePolygonDisplay _).1, (stateAfter_updatePolygonDisplay _).2.1]
      exact h
    · simp only [step, onMapClick]
      simp only [Bool.not_eq_true] at hd
      simp only [hd, Bool.not_false, if_true, stateAfter]
      simp
  | vertexMouseDown pointIndex =>
    simp only [step, onVertexMouseDown]
    split
    · exact h
    · exact h
  | dragMove coords =>
    simp only [step, onDragMove]
    split
    · exact h
    · simp only [(stateAfter_updatePolygonDisplay _).1, (stateAfter_updatePolygonDisplay _).2.1]
      exact h
  | dragEnd =>
    exact h

theorem foldl_step_modesExclusive (events : List Event) (st : PolygonState)
    (h : ModesExclusive st) : ModesExclusive (events.foldl step st) := by
  induction events generalizing st with
  | nil => exact h
  | cons e es ih => exact ih (step st e) (step_modesExclusive st e h)

/-- C16: in every state reached from the initial `polygonState` by a sequence of
`togglePolygonDrawingMode`, `togglePolygonEditMode`, `finishPolygon`,
`finishEditMode`, `resetAll`, map clicks, vertex mousedowns, `onDragMove` and
`onDragEnd`, `drawingMode` and `editMode` are not both true; each mode alone is
reached. -/
theorem modes_never_both (events : List Event) :
    ¬ ((run events).drawingMode = true ∧ (run events).editMode = true)
      ∧ (run [Event.togglePolygonDrawingMode]).drawingMode = true
      ∧ (run [Event.togglePolygonDrawingMode, Event.mapClick (0, 0), Event.mapClick (1, 0),
          Event.mapClick (1, 1), Event.finishPolygon, Event.togglePolygonEditMode]).editMode
          = true :=
  ⟨foldl_step_modesExclusive events initialPolygonState (by decide), by decide, by decide⟩

end PolygonCreator
